import Mathlib

/-!
# Verification of the Waku reliable-channel client (`src/lib/waku.ts`)

This file gives a shallow embedding of the `WakuService` class and its
helpers and proves the specification claims about it.  Strings are
modelled as `List Char` (`Str`), JavaScript `Set`s as insertion-ordered
duplicate-free lists, `Map`s as association lists, and `localStorage`
as an association list of raw strings together with a failure flag that
models storage exceptions.  The external protobufjs `DataPacket` codec
is modelled by its decoded field content (`DataPacketWire`): the
protobuf byte encoding of a fixed message type is deterministic and
injective, so identifying byte strings with their decoded field records
is a faithful quotient.  `JSON.stringify` / `JSON.parse` are modelled
by an executable printer and parser over a `Json` value type (numbers
restricted to integers, which is the numeric range the application
serializes), with the round-trip property proved below.
-/

namespace Waku

/-- JavaScript strings, modelled as lists of characters. -/
abbrev Str := List Char

/-- The opening curly-brace character. -/
def lbraceCh : Char := Char.ofNat 123

/-- The closing curly-brace character. -/
def rbraceCh : Char := Char.ofNat 125

/-- Decimal digit character, as produced by JavaScript number
stringification. -/
def digitCh (n : Nat) : Char := Char.ofNat (48 + n)

/-- Fuel-driven digit expansion (structural recursion, so that closed
terms evaluate inside the kernel); for `n ≤ fuel` it computes the
usual base-10 expansion. -/
def natToDecAux : Nat → Nat → Str
  | 0, n => [digitCh n]
  | fuel + 1, n =>
    if n < 10 then [digitCh n] else natToDecAux fuel (n / 10) ++ [digitCh (n % 10)]

/-- Decimal representation of a natural number (JavaScript
`String(n)` for a non-negative integer). -/
def natToDec (n : Nat) : Str := natToDecAux n n

/-- Value of a decimal digit string (used to invert `natToDec`). -/
def decFromDigits (l : Str) : Nat :=
  l.foldl (fun a c => 10 * a + (c.toNat - 48)) 0

/-- Hexadecimal digit character (lower case, as produced by
JavaScript `Number.prototype.toString(16)`). -/
def hexCh (n : Nat) : Char :=
  if n < 10 then Char.ofNat (48 + n) else Char.ofNat (87 + n)

/-- Fuel-driven hexadecimal expansion (structural recursion). -/
def natToHexAux : Nat → Nat → Str
  | 0, n => [hexCh n]
  | fuel + 1, n =>
    if n < 16 then [hexCh n] else natToHexAux fuel (n / 16) ++ [hexCh (n % 16)]

/-- Hexadecimal representation of a natural number. -/
def natToHex (n : Nat) : Str := natToHexAux n n

/-- JavaScript `i.toString(16)` for a (possibly negative) integer:
negative values print as a minus sign followed by the hexadecimal
digits of the absolute value. -/
def intToHex (i : Int) : Str :=
  if i < 0 then '-' :: natToHex i.natAbs else natToHex i.toNat

/-- JavaScript `ToInt32`: wrap an integer into `[-2^31, 2^31)`. -/
def toInt32 (i : Int) : Int := (i + 2 ^ 31) % 2 ^ 32 - 2 ^ 31

/-- One step of the string hash in `createContentMessageId`:
`hash = ((hash << 5) - hash) + char; hash = hash & hash`.  `<< 5`
wraps to a 32-bit integer and `hash & hash` coerces the
double-precision intermediate back to a 32-bit integer. -/
def hashStep (h : Int) (c : Nat) : Int :=
  toInt32 (toInt32 (h * 32) - h + c)

/-- UTF-16 code units of one character (JavaScript `charCodeAt`
enumerates code units, with surrogate pairs for astral characters). -/
def utf16Units (c : Char) : List Nat :=
  if c.toNat < 65536 then [c.toNat]
  else [55296 + (c.toNat - 65536) / 1024, 56320 + (c.toNat - 65536) % 1024]

/-- UTF-16 code units of a string. -/
def codeUnits (s : Str) : List Nat := (s.map utf16Units).flatten

/-- The 32-bit content hash used by `createContentMessageId`. -/
def contentHash (content : Str) : Int :=
  (codeUnits content).foldl hashStep 0

/-- `createContentMessageId(type, timestamp, senderId, payload)` from
`waku.ts`: hash the `type:timestamp:senderId:payload` concatenation
and append `_timestamp`.  The timestamp is interpolated in decimal. -/
def createContentMessageId (ty : Str) (ts : Nat) (senderId payload : Str) : Str :=
  let content := ty ++ ':' :: natToDec ts ++ ':' :: senderId ++ ':' :: payload
  intToHex (contentHash content) ++ '_' :: natToDec ts

/-- Round a natural number to the nearest multiple of `ulp`, ties to
even (the IEEE-754 rounding used when a 64-bit integer is converted to
a JavaScript `Number`). -/
def roundNE (n ulp : Nat) : Nat :=
  let q := n / ulp
  let r := n % ulp
  if 2 * r < ulp then q * ulp
  else if 2 * r > ulp then (q + 1) * ulp
  else if q % 2 = 0 then q * ulp else (q + 1) * ulp

/-- JavaScript `Number(long)` for an unsigned 64-bit value: exact
below `2^53`, rounded to double precision above. -/
def jsNumberOfUint64 (n : Nat) : Nat :=
  if n < 2 ^ 53 then n else roundNE n (2 ^ (Nat.log2 n - 52))

/-- JSON values, with numbers restricted to integers (the range the
application serializes: identifiers, flags and epoch timestamps). -/
inductive Json where
  | null : Json
  | bool (b : Bool) : Json
  | num (n : Int) : Json
  | str (s : Str) : Json
  | arr (elems : List Json) : Json
  | obj (fields : List (Str × Json)) : Json

/-- `JSON.stringify` escaping of one string character: quote and
backslash get a backslash escape, control characters a `\u00XX`
escape, everything else is emitted verbatim. -/
def escCh (c : Char) : Str :=
  if c = '"' then ['\\', '"']
  else if c = '\\' then ['\\', '\\']
  else if c.toNat < 32 then ['\\', 'u', '0', '0', hexCh (c.toNat / 16), hexCh (c.toNat % 16)]
  else [c]

/-- `JSON.stringify` escaping of a string body. -/
def escStr (s : Str) : Str := (s.map escCh).flatten

/-- Decimal representation of an integer (JavaScript number
stringification, integer case). -/
def intToDec (i : Int) : Str :=
  if i < 0 then '-' :: natToDec i.natAbs else natToDec i.toNat

/-- The keyword `null` as characters. -/
def nullTok : Str := ['n', 'u', 'l', 'l']

/-- The keyword `true` as characters. -/
def trueTok : Str := ['t', 'r', 'u', 'e']

/-- The keyword `false` as characters. -/
def falseTok : Str := ['f', 'a', 'l', 's', 'e']

mutual

/-- The canonical serialization produced by `JSON.stringify` (no
whitespace, double-quoted strings, comma-separated sequences). -/
def printJson : Json → Str
  | .null => nullTok
  | .bool true => trueTok
  | .bool false => falseTok
  | .num n => intToDec n
  | .str s => '"' :: escStr s ++ ['"']
  | .arr [] => ['[', ']']
  | .arr (x :: xs) => '[' :: (printJson x ++ printArrRest xs)
  | .obj [] => [lbraceCh, rbraceCh]
  | .obj (f :: fs) => lbraceCh :: (printField f ++ printObjRest fs)

/-- Comma-separated tail of an array serialization, including the
closing bracket. -/
def printArrRest : List Json → Str
  | [] => [']']
  | x :: xs => ',' :: (printJson x ++ printArrRest xs)

/-- Serialization of one object member, `"key":value`. -/
def printField : Str × Json → Str
  | (k, v) => '"' :: (escStr k ++ '"' :: ':' :: printJson v)

/-- Comma-separated tail of an object serialization, including the
closing brace. -/
def printObjRest : List (Str × Json) → Str
  | [] => [rbraceCh]
  | f :: fs => ',' :: (printField f ++ printObjRest fs)

end

/-- Value of a hexadecimal digit character, if any. -/
def hexVal (c : Char) : Option Nat :=
  if 48 ≤ c.toNat ∧ c.toNat ≤ 57 then some (c.toNat - 48)
  else if 97 ≤ c.toNat ∧ c.toNat ≤ 102 then some (c.toNat - 87)
  else if 65 ≤ c.toNat ∧ c.toNat ≤ 70 then some (c.toNat - 55)
  else none

/-- Decimal digit test. -/
def isDigitCh (c : Char) : Bool := 48 ≤ c.toNat && c.toNat ≤ 57

/-- Decode one string escape sequence after the leading backslash. -/
def escDecode (e : Char) (rest : Str) : Option (Char × Str) :=
  if e = '"' then some ('"', rest)
  else if e = '\\' then some ('\\', rest)
  else if e = '/' then some ('/', rest)
  else if e = 'n' then some (Char.ofNat 10, rest)
  else if e = 't' then some (Char.ofNat 9, rest)
  else if e = 'r' then some (Char.ofNat 13, rest)
  else if e = 'b' then some (Char.ofNat 8, rest)
  else if e = 'f' then some (Char.ofNat 12, rest)
  else if e = 'u' then
    match rest with
    | a :: b :: c :: d :: rest4 =>
      match hexVal a, hexVal b, hexVal c, hexVal d with
      | some x, some y, some z, some w =>
        some (Char.ofNat (4096 * x + 256 * y + 16 * z + w), rest4)
      | _, _, _, _ => none
    | _ => none
  else none

/-- Parse a string body up to and including the closing quote.  One
unit of fuel is spent per produced character. -/
def parseStrBody : Nat → Str → Option (Str × Str)
  | 0, _ => none
  | _ + 1, [] => none
  | fuel + 1, c :: rest =>
    if c = '"' then some ([], rest)
    else if c = '\\' then
      match rest with
      | [] => none
      | e :: rest2 =>
        match escDecode e rest2 with
        | none => none
        | some (ch, rest3) =>
          match parseStrBody fuel rest3 with
          | none => none
          | some (s, r) => some (ch :: s, r)
    else if c.toNat < 32 then none
    else
      match parseStrBody fuel rest with
      | none => none
      | some (s, r) => some (c :: s, r)

/-- Parse a non-empty run of decimal digits. -/
def parseNat (s : Str) : Option (Nat × Str) :=
  let ds := s.takeWhile isDigitCh
  if ds = [] then none else some (decFromDigits ds, s.dropWhile isDigitCh)

mutual

/-- Recursive-descent parser for the canonical JSON grammar emitted by
`printJson` (`JSON.parse` restricted to that grammar; fractional and
exponent number forms, which the application never stores, are
rejected). -/
def parseValue : Nat → Str → Option (Json × Str)
  | 0, _ => none
  | _ + 1, [] => none
  | fuel + 1, c :: rest =>
    if c = 'n' then
      match rest with
      | 'u' :: 'l' :: 'l' :: r => some (.null, r)
      | _ => none
    else if c = 't' then
      match rest with
      | 'r' :: 'u' :: 'e' :: r => some (.bool true, r)
      | _ => none
    else if c = 'f' then
      match rest with
      | 'a' :: 'l' :: 's' :: 'e' :: r => some (.bool false, r)
      | _ => none
    else if c = '"' then
      match parseStrBody fuel rest with
      | none => none
      | some (s, r) => some (.str s, r)
    else if c = '-' then
      match parseNat rest with
      | none => none
      | some (n, r) => some (.num (-(n : Int)), r)
    else if isDigitCh c then
      match parseNat (c :: rest) with
      | none => none
      | some (n, r) => some (.num (n : Int), r)
    else if c = '[' then
      match rest with
      | [] => none
      | c2 :: rest2 =>
        if c2 = ']' then some (.arr [], rest2)
        else
          match parseValue fuel (c2 :: rest2) with
          | none => none
          | some (x, r1) =>
            match parseArrRest fuel r1 with
            | none => none
            | some (xs, r2) => some (.arr (x :: xs), r2)
    else if c = lbraceCh then
      match rest with
      | [] => none
      | c2 :: rest2 =>
        if c2 = rbraceCh then some (.obj [], rest2)
        else
          match parseField fuel (c2 :: rest2) with
          | none => none
          | some (f, r1) =>
            match parseObjRest fuel r1 with
            | none => none
            | some (fs, r2) => some (.obj (f :: fs), r2)
    else none

/-- Parse the tail of an array: a closing bracket or a comma followed
by a value and the remaining tail. -/
def parseArrRest : Nat → Str → Option (List Json × Str)
  | 0, _ => none
  | _ + 1, [] => none
  | fuel + 1, c :: rest =>
    if c = ']' then some ([], rest)
    else if c = ',' then
      match parseValue fuel rest with
      | none => none
      | some (x, r1) =>
        match parseArrRest fuel r1 with
        | none => none
        | some (xs, r2) => some (x :: xs, r2)
    else none

/-- Parse one object member, `"key":value`. -/
def parseField : Nat → Str → Option ((Str × Json) × Str)
  | 0, _ => none
  | _ + 1, [] => none
  | fuel + 1, c :: rest =>
    if c = '"' then
      match parseStrBody fuel rest with
      | none => none
      | some (k, r1) =>
        match r1 with
        | ':' :: r2 =>
          match parseValue fuel r2 with
          | none => none
          | some (v, r3) => some ((k, v), r3)
        | _ => none
    else none

/-- Parse the tail of an object: a closing brace or a comma followed
by a member and the remaining tail. -/
def parseObjRest : Nat → Str → Option (List (Str × Json) × Str)
  | 0, _ => none
  | _ + 1, [] => none
  | fuel + 1, c :: rest =>
    if c = rbraceCh then some ([], rest)
    else if c = ',' then
      match parseField fuel rest with
      | none => none
      | some (f, r1) =>
        match parseObjRest fuel r1 with
        | none => none
        | some (fs, r2) => some (f :: fs, r2)
    else none

end

/-- `JSON.parse` on the canonical grammar: the whole input must be one
value. -/
def parseJson (s : Str) : Option Json :=
  match parseValue (s.length + 1) s with
  | some (j, []) => some j
  | _ => none

/-- The application envelope (`WakuMessage` in `types/waku.ts`): the
message type (a string enum), an epoch-millisecond timestamp, the
sender id and a structured payload. -/
structure WakuMessage where
  type : Str
  timestamp : Nat
  senderId : Str
  payload : Json

/-- The decoded field content of a protobufjs `DataPacket`
(`type: string, timestamp: uint64, senderId: string, payload: string`).
The byte encoding of this fixed message shape is deterministic and
injective, so wire bytes are modelled by this record. -/
structure DataPacketWire where
  type : Str
  timestamp : Nat
  senderId : Str
  payload : Str
deriving DecidableEq

/-- The encode half of `sendMessage`:
`DataPacket.create({type, timestamp, senderId, payload: JSON.stringify(message.payload)})`
followed by `DataPacket.encode(..).finish()`.  The `uint64` field
stores the value modulo `2^64`; `senderId` is the `senderId`
argument of `sendMessage`. -/
def dataPacketOfMessage (message : WakuMessage) (senderId : Str) : DataPacketWire :=
  { type := message.type
    timestamp := message.timestamp % 2 ^ 64
    senderId := senderId
    payload := printJson message.payload }

/-- The decode half of the `message-received` handler:
`DataPacket.decode` (field projection on the wire record), then the
`WakuMessage` reconstruction `{type, timestamp: Number(..), senderId,
payload: JSON.parse(..)}`.  `none` models the `JSON.parse` throw
caught by the handler. -/
def decodeReceived (w : DataPacketWire) : Option WakuMessage :=
  match parseJson w.payload with
  | none => none
  | some p => some ⟨w.type, jsNumberOfUint64 w.timestamp, w.senderId, p⟩

/-- Delivery callbacks (`MessageCallbacks` in `waku.ts`); every field
is optional, so each is modelled by a presence flag. -/
structure MessageCallbacks where
  onSending : Bool
  onSent : Bool
  onAcknowledged : Bool
  onError : Bool
deriving DecidableEq

/-- `localStorage`: raw key/value pairs plus a flag modelling storage
exceptions (`getItem`/`setItem` throwing, e.g. quota or privacy
errors). -/
structure Storage where
  fail : Bool
  data : List (Str × Str)
deriving DecidableEq

/-- Association-list lookup (JavaScript `Map.get`). -/
def lookupA {β : Type} : List (Str × β) → Str → Option β
  | [], _ => none
  | (k', v') :: t, k => if k' = k then some v' else lookupA t k

/-- Association-list insert-or-replace (JavaScript `Map.set`). -/
def setA {β : Type} : List (Str × β) → Str → β → List (Str × β)
  | [], k, v => [(k, v)]
  | (k', v') :: t, k, v => if k' = k then (k, v) :: t else (k', v') :: setA t k v

/-- Association-list removal (JavaScript `Map.delete`; a `Map` never
holds duplicate keys, so removing every entry with the key coincides
with deleting the unique one). -/
def removeA {β : Type} : List (Str × β) → Str → List (Str × β)
  | [], _ => []
  | (k', v') :: t, k => if k' = k then removeA t k else (k', v') :: removeA t k

/-- JavaScript `Set.add`: append if absent, no-op if present. -/
def jsSetAdd {α : Type} [DecidableEq α] (l : List α) (x : α) : List α :=
  if x ∈ l then l else l ++ [x]

/-- First-occurrence deduplication (the effect of iterating a
JavaScript iterable into a fresh `Set`). -/
def dedupFirst {α : Type} [DecidableEq α] (l : List α) : List α :=
  l.foldl jsSetAdd []

/-- `localStorage.getItem`, which can throw (modelled by the `fail`
flag). -/
def getItem (st : Storage) (k : Str) : Except Unit (Option Str) :=
  if st.fail then .error () else .ok (lookupA st.data k)

/-- `localStorage.setItem`, which can throw. -/
def setItem (st : Storage) (k v : Str) : Except Unit Storage :=
  if st.fail then .error () else .ok ⟨st.fail, setA st.data k v⟩

/-- The storage key `waku_processed_<instanceId>`. -/
def storageKey (instanceId : Str) : Str :=
  "waku_processed_".toList ++ instanceId

/-- `MAX_PROCESSED_IDS = 1000`. -/
def MAX_PROCESSED_IDS : Nat := 1000

/-- The string universe element a JSON array member contributes to
`new Set(JSON.parse(stored))`: string members contribute themselves;
a non-string member is represented by its serialization (such a member
is never equal to a content message id, which always contains an
underscore). -/
def jsonElemStr (j : Json) : Str :=
  match j with
  | .str s => s
  | _ => printJson j

/-- `new Set(value)` for a parsed JSON value, coerced to the string
universe: arrays enumerate their members, strings enumerate their
characters, anything else is not iterable and throws (yielding `[]`
through the caller's catch). -/
def jsSetOfJson (j : Json) : List Str :=
  match j with
  | .arr xs => dedupFirst (xs.map jsonElemStr)
  | .str s => dedupFirst (s.map (fun c => [c]))
  | _ => []

/-- `loadProcessedIds` from `waku.ts`: read
`waku_processed_<instanceId>`, parse it, and build a set; any read or
parse failure is caught (warn-logged) and yields the empty set. -/
def loadProcessedIds (st : Storage) (instanceId : Str) : List Str :=
  match getItem st (storageKey instanceId) with
  | .error _ => []
  | .ok none => []
  | .ok (some raw) =>
    match parseJson raw with
    | none => []
    | some j => jsSetOfJson j

/-- `saveProcessedIds` from `waku.ts`: persist the last
`MAX_PROCESSED_IDS` ids (`Array.from(ids).slice(-MAX)`) as a JSON
array; a write failure is caught (warn-logged) and leaves storage
unchanged. -/
def saveProcessedIds (st : Storage) (instanceId : Str) (ids : List Str) : Storage :=
  let toStore := ids.drop (ids.length - MAX_PROCESSED_IDS)
  match setItem st (storageKey instanceId) (printJson (.arr (toStore.map .str))) with
  | .error _ => st
  | .ok st' => st'

/-- The in-memory state of the `WakuService` singleton: the channel
map (modelled by its key set — the transport handles are opaque), the
per-room listener sets (listeners identified by `Nat` tokens), the
per-room deduplication stores (insertion-ordered), the per-room
delivery-callback maps, and the storage backend.  The transport node,
encoder/decoder and health state are outside the claims under
verification and are elided. -/
structure WakuState where
  channels : List Str
  channelListeners : List (Str × List Nat)
  processedMessageIds : List (Str × List Str)
  messageCallbacks : List (Str × List (Str × MessageCallbacks))
  storage : Storage

/-- Observable effects of a handler run, in order: observability
(SDS) records, delivery-callback invocations, listener fan-out, and
transport sends. -/
inductive Output where
  | sds (ty ev room : Str)
  | cb (room handle name : Str)
  | notify (room : Str) (listener : Nat) (message : WakuMessage)
  | chanSend (room : Str) (wire : DataPacketWire)

/-- `getOrCreateChannel(instanceId, senderId)`: no-op when the channel
exists; otherwise create the channel, fresh (empty) listener and
callback structures, and load the persisted deduplication ids.  The
`initialize()` guard (which throws before any state change) and the
transport-level channel construction are outside the modelled
fragment; the channel's event listeners are modelled by the
`handle...` functions below. -/
def getOrCreateChannel (s : WakuState) (instanceId : Str) : WakuState :=
  if instanceId ∈ s.channels then s
  else
    { channels := instanceId :: s.channels
      channelListeners := setA s.channelListeners instanceId []
      processedMessageIds :=
        setA s.processedMessageIds instanceId (loadProcessedIds s.storage instanceId)
      messageCallbacks := setA s.messageCallbacks instanceId []
      storage := s.storage }

/-- `leaveChannel(instanceId)`: no-op when not joined; otherwise
delete the room's four in-memory structures.  Persistent storage is
not touched. -/
def leaveChannel (s : WakuState) (instanceId : Str) : WakuState :=
  if instanceId ∈ s.channels then
    { channels := s.channels.erase instanceId
      channelListeners := removeA s.channelListeners instanceId
      processedMessageIds := removeA s.processedMessageIds instanceId
      messageCallbacks := removeA s.messageCallbacks instanceId
      storage := s.storage }
  else s

/-- `sendMessage(instanceId, message, senderId, callbacks?)`.  The
transport-assigned send handle is an input (`handle`).  When the room
has no channel the call throws before any callback or transport
interaction; otherwise `onSending` is invoked directly if supplied,
the envelope is encoded and sent, and the callbacks are registered
under the returned handle. -/
def sendMessage (s : WakuState) (instanceId : Str) (message : WakuMessage)
    (senderId : Str) (callbacks : Option MessageCallbacks) (handle : Str) :
    Except Str Str × WakuState × List Output :=
  if instanceId ∈ s.channels then
    let wire := dataPacketOfMessage message senderId
    let sendingOut :=
      match callbacks with
      | some cbs => if cbs.onSending then [Output.cb instanceId handle "onSending".toList] else []
      | none => []
    let s' :=
      match callbacks with
      | none => s
      | some cbs =>
        match lookupA s.messageCallbacks instanceId with
        | none => s
        | some m =>
          { s with messageCallbacks := setA s.messageCallbacks instanceId (setA m handle cbs) }
    (.ok handle, s', sendingOut ++ [Output.chanSend instanceId wire])
  else
    (.error ("Not connected to channel (NotJoinedError)".toList), s, [])

/-- `onMessage(instanceId, listener)`: create the room's listener set
if absent, then add the listener.  (The returned unsubscribe closure
is not needed by the claims.) -/
def onMessage (s : WakuState) (instanceId : Str) (listener : Nat) : WakuState :=
  let ls := (lookupA s.channelListeners instanceId).getD []
  { s with channelListeners := setA s.channelListeners instanceId (jsSetAdd ls listener) }

/-- The persistence policy in the `message-received` handler: only
`ANSWER_SUBMITTED` and `QUESTION_ADDED` messages are persisted. -/
def shouldPersistType (ty : Str) : Bool :=
  ty == "ANSWER_SUBMITTED".toList || ty == "QUESTION_ADDED".toList

/-- FIFO eviction in the `message-received` handler: when the store
exceeds `MAX_PROCESSED_IDS`, the oldest `size - MAX` entries are
removed. -/
def evictOld (l : List Str) : List Str :=
  if l.length > MAX_PROCESSED_IDS then l.drop (l.length - MAX_PROCESSED_IDS) else l

/-- The deduplication-store update performed by one handler run for
one content id: no-op on a duplicate, otherwise append and evict. -/
def recordId (l : List Str) (id : Str) : List Str :=
  if id ∈ l then l else evictOld (l ++ [id])

/-- The `message-received` listener attached per channel in
`getOrCreateChannel`: emit the observability record, decode, compute
the content id, initialize the store if missing, drop duplicates,
record and (per policy) persist the id, evict, decode the payload and
fan out to the room's listeners.  A `JSON.parse` throw is caught after
the store mutations, so it leaves them in place and skips only the
fan-out. -/
def handleMessageReceived (s : WakuState) (instanceId : Str) (wire : DataPacketWire) :
    WakuState × List Output :=
  let out0 := Output.sds "in".toList "message-received".toList instanceId
  let messageId := createContentMessageId wire.type wire.timestamp wire.senderId wire.payload
  let s0 :=
    match lookupA s.processedMessageIds instanceId with
    | some _ => s
    | none => { s with processedMessageIds := setA s.processedMessageIds instanceId [] }
  let ids0 := (lookupA s0.processedMessageIds instanceId).getD []
  if messageId ∈ ids0 then (s0, [out0])
  else
    let ids1 := ids0 ++ [messageId]
    let persist := shouldPersistType wire.type
    let st1 := if persist then saveProcessedIds s0.storage instanceId ids1 else s0.storage
    let ids2 := evictOld ids1
    let st2 :=
      if ids1.length > MAX_PROCESSED_IDS ∧ persist then saveProcessedIds st1 instanceId ids2
      else st1
    let s1 := { s0 with
      processedMessageIds := setA s0.processedMessageIds instanceId ids2
      storage := st2 }
    match parseJson wire.payload with
    | none => (s1, [out0])
    | some p =>
      let message : WakuMessage := ⟨wire.type, jsNumberOfUint64 wire.timestamp, wire.senderId, p⟩
      let outs :=
        match lookupA s1.channelListeners instanceId with
        | none => []
        | some ls => ls.map (fun l => Output.notify instanceId l message)
      (s1, out0 :: outs)

/-- The `sending-message` listener: observability record, then the
`onSending` callback registered for the handle, if any. -/
def handleSendingMessage (s : WakuState) (instanceId messageId : Str) :
    WakuState × List Output :=
  let out0 := Output.sds "out".toList "sending-message".toList instanceId
  match lookupA s.messageCallbacks instanceId with
  | none => (s, [out0])
  | some m =>
    match lookupA m messageId with
    | none => (s, [out0])
    | some cbs =>
      if cbs.onSending then (s, [out0, Output.cb instanceId messageId "onSending".toList])
      else (s, [out0])

/-- The `message-sent` listener. -/
def handleMessageSent (s : WakuState) (instanceId messageId : Str) :
    WakuState × List Output :=
  let out0 := Output.sds "out".toList "message-sent".toList instanceId
  match lookupA s.messageCallbacks instanceId with
  | none => (s, [out0])
  | some m =>
    match lookupA m messageId with
    | none => (s, [out0])
    | some cbs =>
      if cbs.onSent then (s, [out0, Output.cb instanceId messageId "onSent".toList])
      else (s, [out0])

/-- The `message-possibly-acknowledged` listener: observability and
console logging only; the callback map is not consulted or
modified. -/
def handlePossiblyAcknowledged (s : WakuState) (instanceId _messageId : Str) :
    WakuState × List Output :=
  (s, [Output.sds "out".toList "message-possibly-acknowledged".toList instanceId])

/-- The `message-acknowledged` listener: observability record, then —
only when an `onAcknowledged` callback was registered for the handle —
invoke it and delete the handle's callback entry. -/
def handleMessageAcknowledged (s : WakuState) (instanceId messageId : Str) :
    WakuState × List Output :=
  let out0 := Output.sds "out".toList "message-acknowledged".toList instanceId
  match lookupA s.messageCallbacks instanceId with
  | none => (s, [out0])
  | some m =>
    match lookupA m messageId with
    | none => (s, [out0])
    | some cbs =>
      if cbs.onAcknowledged then
        ({ s with messageCallbacks := setA s.messageCallbacks instanceId (removeA m messageId) },
          [out0, Output.cb instanceId messageId "onAcknowledged".toList])
      else (s, [out0])

/-- The `sending-message-irrecoverable-error` listener: observability
record, then — only when an `onError` callback was registered for the
handle — invoke it and delete the handle's callback entry. -/
def handleIrrecoverableError (s : WakuState) (instanceId messageId : Str) :
    WakuState × List Output :=
  let out0 := Output.sds "error".toList "sending-error".toList instanceId
  match lookupA s.messageCallbacks instanceId with
  | none => (s, [out0])
  | some m =>
    match lookupA m messageId with
    | none => (s, [out0])
    | some cbs =>
      if cbs.onError then
        ({ s with messageCallbacks := setA s.messageCallbacks instanceId (removeA m messageId) },
          [out0, Output.cb instanceId messageId "onError".toList])
      else (s, [out0])

/-- The room's deduplication store, as read by the receive path. -/
def storeOf (s : WakuState) (instanceId : Str) : List Str :=
  (lookupA s.processedMessageIds instanceId).getD []

/-- The room's listener set. -/
def listenersOf (s : WakuState) (instanceId : Str) : List Nat :=
  (lookupA s.channelListeners instanceId).getD []

/-- The callback entry registered for a handle in a room. -/
def cbLookup (s : WakuState) (instanceId handle : Str) : Option MessageCallbacks :=
  match lookupA s.messageCallbacks instanceId with
  | none => none
  | some m => lookupA m handle

/-- Listener fan-out records among a handler's outputs. -/
def notifyOutputs (outs : List Output) : List Output :=
  outs.filter fun o =>
    match o with
    | .notify _ _ _ => true
    | _ => false

/-- Whether an output is a dedicated observability record named
`duplicate`. -/
def isDuplicateRecord (o : Output) : Bool :=
  match o with
  | .sds _ ev _ => ev == "duplicate".toList
  | _ => false

/-- Sequential delivery of several wire messages to one room,
accumulating the observable outputs. -/
def runReceives (s : WakuState) (instanceId : Str) : List DataPacketWire → WakuState × List Output
  | [] => (s, [])
  | w :: ws =>
    let (s1, o1) := handleMessageReceived s instanceId w
    let (s2, o2) := runReceives s1 instanceId ws
    (s2, o1 ++ o2)

/-! ## Character and digit lemmas -/

theorem char_toNat_ofNat {n : Nat} (h : n < 55296) : (Char.ofNat n).toNat = n := by
  have hv : n.isValidChar := Or.inl (by omega)
  simp only [Char.ofNat, hv, dif_pos, Char.ofNatAux, Char.toNat, UInt32.toNat]
  simp [BitVec.toNat_ofNatLt]

theorem digitCh_toNat {n : Nat} (h : n < 10) : (digitCh n).toNat = 48 + n := by
  unfold digitCh
  exact char_toNat_ofNat (by omega)

theorem natToDecAux_congr :
    ∀ (f1 f2 n : Nat), n ≤ f1 → n ≤ f2 → natToDecAux f1 n = natToDecAux f2 n := by
  intro f1
  induction f1 with
  | zero =>
    intro f2 n h1 _
    interval_cases n
    cases f2 <;> simp [natToDecAux]
  | succ f ih =>
    intro f2 n h1 h2
    cases f2 with
    | zero =>
      interval_cases n
      simp [natToDecAux]
    | succ f2' =>
      simp only [natToDecAux]
      by_cases hn : n < 10
      · simp [hn]
      · have hd : n / 10 < n := Nat.div_lt_self (by omega) (by omega)
        rw [if_neg hn, if_neg hn, ih f2' (n / 10) (by omega) (by omega)]

theorem natToDec_lt {n : Nat} (h : n < 10) : natToDec n = [digitCh n] := by
  unfold natToDec
  cases n with
  | zero => simp [natToDecAux]
  | succ m => simp [natToDecAux, h]

theorem natToDec_ge {n : Nat} (h : ¬n < 10) :
    natToDec n = natToDec (n / 10) ++ [digitCh (n % 10)] := by
  unfold natToDec
  obtain ⟨m, rfl⟩ : ∃ m, n = m + 1 := ⟨n - 1, by omega⟩
  show natToDecAux (m + 1) (m + 1) = _
  simp only [natToDecAux]
  rw [if_neg h,
    natToDecAux_congr m ((m + 1) / 10) ((m + 1) / 10)
      (by omega) (le_refl _)]

theorem natToDec_digits (n : Nat) : ∀ c ∈ natToDec n, 48 ≤ c.toNat ∧ c.toNat ≤ 57 := by
  induction n using Nat.strong_induction_on with
  | _ n ih =>
    by_cases h : n < 10
    · rw [natToDec_lt h]
      intro c hc
      rw [List.mem_singleton] at hc
      subst hc
      rw [digitCh_toNat h]
      omega
    · rw [natToDec_ge h]
      intro c hc
      rcases List.mem_append.1 hc with hc | hc
      · exact ih (n / 10) (Nat.div_lt_self (by omega) (by omega)) c hc
      · rw [List.mem_singleton] at hc
        subst hc
        rw [digitCh_toNat (Nat.mod_lt n (by omega))]
        have := Nat.mod_lt n (show 0 < 10 by omega)
        omega

theorem natToDec_ne_nil (n : Nat) : natToDec n ≠ [] := by
  by_cases h : n < 10
  · rw [natToDec_lt h]; simp
  · rw [natToDec_ge h]; simp

theorem decFromDigits_concat (xs : Str) (c : Char) :
    decFromDigits (xs ++ [c]) = 10 * decFromDigits xs + (c.toNat - 48) := by
  unfold decFromDigits
  rw [List.foldl_concat]

theorem decFromDigits_natToDec (n : Nat) : decFromDigits (natToDec n) = n := by
  induction n using Nat.strong_induction_on with
  | _ n ih =>
    by_cases h : n < 10
    · rw [natToDec_lt h]
      show 10 * 0 + ((digitCh n).toNat - 48) = n
      rw [digitCh_toNat h]
      omega
    · rw [natToDec_ge h, decFromDigits_concat,
        ih (n / 10) (Nat.div_lt_self (by omega) (by omega)),
        digitCh_toNat (Nat.mod_lt n (by omega))]
      omega

theorem natToDec_injective : Function.Injective natToDec :=
  Function.LeftInverse.injective decFromDigits_natToDec

theorem hexCh_toNat {n : Nat} (h : n < 16) :
    (hexCh n).toNat = if n < 10 then 48 + n else 87 + n := by
  unfold hexCh
  split <;> rw [char_toNat_ofNat (by omega)]

theorem hexCh_ne_underscore {n : Nat} (h : n < 16) : hexCh n ≠ '_' := by
  intro heq
  have h2 := congrArg Char.toNat heq
  rw [hexCh_toNat h] at h2
  have h3 : ('_').toNat = 95 := by decide
  rw [h3] at h2
  split at h2 <;> omega

theorem natToHexAux_no_underscore :
    ∀ (fuel n : Nat), n ≤ fuel → ∀ c ∈ natToHexAux fuel n, c ≠ '_' := by
  intro fuel
  induction fuel with
  | zero =>
    intro n h c hc
    interval_cases n
    rw [natToHexAux, List.mem_singleton] at hc
    subst hc
    exact hexCh_ne_underscore (by omega)
  | succ f ih =>
    intro n h c hc
    rw [natToHexAux] at hc
    by_cases hn : n < 16
    · rw [if_pos hn, List.mem_singleton] at hc
      subst hc
      exact hexCh_ne_underscore hn
    · rw [if_neg hn] at hc
      rcases List.mem_append.1 hc with hc | hc
      · exact ih (n / 16) (by
          have := Nat.div_lt_self (show 0 < n by omega) (show 1 < 16 by omega)
          omega) c hc
      · rw [List.mem_singleton] at hc
        subst hc
        exact hexCh_ne_underscore (Nat.mod_lt n (by omega))

theorem natToHex_no_underscore (n : Nat) : ∀ c ∈ natToHex n, c ≠ '_' :=
  natToHexAux_no_underscore n n (le_refl n)

theorem intToHex_no_underscore (i : Int) : ∀ c ∈ intToHex i, c ≠ '_' := by
  unfold intToHex
  split
  · intro c hc
    rcases List.mem_cons.1 hc with hc | hc
    · subst hc; decide
    · exact natToHex_no_underscore _ c hc
  · exact natToHex_no_underscore _

theorem underscore_split :
    ∀ (a b t1 t2 : Str), (∀ c ∈ a, c ≠ '_') → (∀ c ∈ b, c ≠ '_') →
      a ++ '_' :: t1 = b ++ '_' :: t2 → a = b ∧ t1 = t2 := by
  intro a
  induction a with
  | nil =>
    intro b t1 t2 _ hb heq
    cases b with
    | nil =>
      simp only [List.nil_append, List.cons.injEq] at heq
      exact ⟨rfl, heq.2⟩
    | cons d b' =>
      simp only [List.nil_append, List.cons_append, List.cons.injEq] at heq
      exact absurd heq.1.symm (hb d (List.mem_cons_self d b'))
  | cons c a' ih =>
    intro b t1 t2 ha hb heq
    cases b with
    | nil =>
      simp only [List.cons_append, List.nil_append, List.cons.injEq] at heq
      exact absurd heq.1 (ha c (List.mem_cons_self c a'))
    | cons d b' =>
      simp only [List.cons_append, List.cons.injEq] at heq
      obtain ⟨hcd, heq'⟩ := heq
      have := ih b' t1 t2 (fun x hx => ha x (List.mem_cons_of_mem c hx))
        (fun x hx => hb x (List.mem_cons_of_mem d hx)) heq'
      exact ⟨by rw [hcd, this.1], this.2⟩

theorem toInt32_range (i : Int) : -2 ^ 31 ≤ toInt32 i ∧ toInt32 i < 2 ^ 31 := by
  unfold toInt32
  have h1 : (0 : Int) ≤ (i + 2 ^ 31) % 2 ^ 32 := Int.emod_nonneg _ (by norm_num)
  have h2 : (i + 2 ^ 31) % 2 ^ 32 < 2 ^ 32 := Int.emod_lt_of_pos _ (by norm_num)
  omega

theorem contentHash_range (content : Str) :
    -2 ^ 31 ≤ contentHash content ∧ contentHash content < 2 ^ 31 := by
  unfold contentHash
  generalize codeUnits content = units
  induction units using List.reverseRecOn with
  | nil => constructor <;> simp [List.foldl_nil]
  | append_singleton xs x _ =>
    rw [List.foldl_concat]
    exact toInt32_range _

/-! ## JSON round-trip lemmas -/

theorem takeWhile_append_all {p : Char → Bool} :
    ∀ (xs rest : Str), (∀ c ∈ xs, p c = true) →
      (∀ c, rest.head? = some c → p c = false) →
      (xs ++ rest).takeWhile p = xs ∧ (xs ++ rest).dropWhile p = rest := by
  intro xs
  induction xs with
  | nil =>
    intro rest _ hr
    cases rest with
    | nil => simp
    | cons c r => simp [List.takeWhile_cons, List.dropWhile_cons, hr c rfl]
  | cons d xs' ih =>
    intro rest hx hr
    have hd : p d = true := hx d (List.mem_cons_self d xs')
    have := ih rest (fun c hc => hx c (List.mem_cons_of_mem d hc)) hr
    simp [List.takeWhile_cons, List.dropWhile_cons, hd, this.1, this.2]

theorem parseNat_roundtrip (n : Nat) (rest : Str)
    (hr : ∀ c, rest.head? = some c → isDigitCh c = false) :
    parseNat (natToDec n ++ rest) = some (n, rest) := by
  have hd : ∀ c ∈ natToDec n, isDigitCh c = true := by
    intro c hc
    have := natToDec_digits n c hc
    unfold isDigitCh
    simp only [Bool.and_eq_true, decide_eq_true_eq]
    omega
  obtain ⟨ht, hdp⟩ := takeWhile_append_all (natToDec n) rest hd hr
  unfold parseNat
  rw [ht, hdp]
  simp [natToDec_ne_nil n, decFromDigits_natToDec]

theorem hexVal_hexCh {d : Nat} (h : d < 16) : hexVal (hexCh d) = some d := by
  by_cases h10 : d < 10
  · have ht : (hexCh d).toNat = 48 + d := by rw [hexCh_toNat h, if_pos h10]
    unfold hexVal
    rw [ht, if_pos (by omega)]
    congr 1
    omega
  · have ht : (hexCh d).toNat = 87 + d := by rw [hexCh_toNat h, if_neg h10]
    unfold hexVal
    rw [ht, if_neg (by omega), if_pos (by omega)]
    congr 1
    omega

theorem parseStrBody_roundtrip :
    ∀ (s rest : Str) (fuel : Nat), (escStr s).length < fuel →
      parseStrBody fuel (escStr s ++ '"' :: rest) = some (s, rest) := by
  intro s
  induction s with
  | nil =>
    intro rest fuel hf
    obtain ⟨f, rfl⟩ : ∃ f, fuel = f + 1 := ⟨fuel - 1, by omega⟩
    simp [escStr, parseStrBody]
  | cons c s' ih =>
    intro rest fuel hf
    have hesc : escStr (c :: s') = escCh c ++ escStr s' := rfl
    rw [hesc] at hf ⊢
    by_cases hq : c = '"'
    · subst hq
      have he : escCh '"' = ['\\', '"'] := by decide
      rw [he] at hf ⊢
      obtain ⟨f, rfl⟩ : ∃ f, fuel = f + 1 := ⟨fuel - 1, by omega⟩
      simp only [List.cons_append, List.nil_append, List.length_cons,
        List.length_append] at hf ⊢
      simp [parseStrBody, escDecode, ih rest f (by omega)]
    · by_cases hb : c = '\\'
      · subst hb
        have he : escCh '\\' = ['\\', '\\'] := by decide
        rw [he] at hf ⊢
        obtain ⟨f, rfl⟩ : ∃ f, fuel = f + 1 := ⟨fuel - 1, by omega⟩
        simp only [List.cons_append, List.nil_append, List.length_cons,
          List.length_append] at hf ⊢
        simp [parseStrBody, escDecode, ih rest f (by omega)]
      · by_cases hc : c.toNat < 32
        · have he : escCh c =
              ['\\', 'u', '0', '0', hexCh (c.toNat / 16), hexCh (c.toNat % 16)] := by
            unfold escCh
            rw [if_neg hq, if_neg hb, if_pos hc]
          rw [he] at hf ⊢
          obtain ⟨f, rfl⟩ : ∃ f, fuel = f + 1 := ⟨fuel - 1, by omega⟩
          simp only [List.cons_append, List.nil_append, List.length_cons,
            List.length_append] at hf ⊢
          have h0 : hexVal '0' = some 0 := by decide
          have hhi : hexVal (hexCh (c.toNat / 16)) = some (c.toNat / 16) :=
            hexVal_hexCh (by omega)
          have hlo : hexVal (hexCh (c.toNat % 16)) = some (c.toNat % 16) :=
            hexVal_hexCh (by omega)
          have harith : 16 * (c.toNat / 16) + c.toNat % 16 = c.toNat := by
            omega
          simp [parseStrBody, escDecode, h0, hhi, hlo, harith, Char.ofNat_toNat,
            ih rest f (by omega)]
        · have he : escCh c = [c] := by
            unfold escCh
            rw [if_neg hq, if_neg hb, if_neg hc]
          rw [he] at hf ⊢
          obtain ⟨f, rfl⟩ : ∃ f, fuel = f + 1 := ⟨fuel - 1, by omega⟩
          simp only [List.cons_append, List.nil_append, List.length_cons,
            List.length_append] at hf ⊢
          simp [parseStrBody, hq, hb, hc, ih rest f (by omega)]

theorem printJson_head (j : Json) :
    ∃ d ds, printJson j = d :: ds ∧
      (d = 'n' ∨ d = 't' ∨ d = 'f' ∨ d = '"' ∨ d = '-' ∨ isDigitCh d = true ∨
        d = '[' ∨ d = lbraceCh) := by
  cases j with
  | null => exact ⟨'n', _, rfl, by simp⟩
  | bool b => cases b with
    | true => exact ⟨'t', _, rfl, by simp⟩
    | false => exact ⟨'f', _, rfl, by simp⟩
  | num n =>
    show ∃ d ds, intToDec n = d :: ds ∧ _
    unfold intToDec
    by_cases hneg : n < 0
    · rw [if_pos hneg]
      exact ⟨'-', _, rfl, by simp⟩
    · rw [if_neg hneg]
      rcases hnd : natToDec n.toNat with _ | ⟨d, ds⟩
      · exact absurd hnd (natToDec_ne_nil _)
      · refine ⟨d, ds, rfl, ?_⟩
        have hb := natToDec_digits n.toNat d (by rw [hnd]; exact List.mem_cons_self d ds)
        have : isDigitCh d = true := by
          unfold isDigitCh
          simp only [Bool.and_eq_true, decide_eq_true_eq]
          omega
        tauto
  | str s => exact ⟨'"', _, rfl, by simp⟩
  | arr xs => cases xs with
    | nil => exact ⟨'[', _, rfl, by simp⟩
    | cons x xs' => exact ⟨'[', _, rfl, by simp⟩
  | obj fs => cases fs with
    | nil => exact ⟨lbraceCh, _, rfl, by simp⟩
    | cons f fs' => exact ⟨lbraceCh, _, rfl, by simp⟩

theorem valueHead_ne_closers {d : Char}
    (h : d = 'n' ∨ d = 't' ∨ d = 'f' ∨ d = '"' ∨ d = '-' ∨ isDigitCh d = true ∨
      d = '[' ∨ d = lbraceCh) :
    ¬d = ']' ∧ ¬d = rbraceCh := by
  rcases h with rfl | rfl | rfl | rfl | rfl | hd | rfl | rfl
  · exact ⟨by decide, by decide⟩
  · exact ⟨by decide, by decide⟩
  · exact ⟨by decide, by decide⟩
  · exact ⟨by decide, by decide⟩
  · exact ⟨by decide, by decide⟩
  · constructor <;> intro heq <;> subst heq <;> exact absurd hd (by decide)
  · exact ⟨by decide, by decide⟩
  · exact ⟨by decide, by decide⟩

theorem printArrRest_head (xs : List Json) :
    ∃ d ds, printArrRest xs = d :: ds ∧ (d = ',' ∨ d = ']') := by
  cases xs with
  | nil => exact ⟨']', _, rfl, by simp⟩
  | cons x xs' => exact ⟨',', _, rfl, by simp⟩

theorem printObjRest_head (fs : List (Str × Json)) :
    ∃ d ds, printObjRest fs = d :: ds ∧ (d = ',' ∨ d = rbraceCh) := by
  cases fs with
  | nil => exact ⟨rbraceCh, _, rfl, by simp⟩
  | cons f fs' => exact ⟨',', _, rfl, by simp⟩

theorem sepHead_not_digit {d : Char} (h : d = ',' ∨ d = ']') : isDigitCh d = false := by
  rcases h with rfl | rfl <;> decide

theorem objSepHead_not_digit {d : Char} (h : d = ',' ∨ d = rbraceCh) : isDigitCh d = false := by
  rcases h with rfl | rfl <;> decide

theorem digit_head_not_keyword {d : Char} (hd : isDigitCh d = true) :
    ¬d = 'n' ∧ ¬d = 't' ∧ ¬d = 'f' ∧ ¬d = '"' ∧ ¬d = '-' := by
  refine ⟨?_, ?_, ?_, ?_, ?_⟩ <;> intro heq <;> subst heq <;> exact absurd hd (by decide)

theorem isDigitCh_lbracket : isDigitCh '[' = false := by decide

theorem isDigitCh_lbrace : isDigitCh lbraceCh = false := by decide

theorem lbraceCh_ne_keywords :
    ¬(lbraceCh = 'n') ∧ ¬(lbraceCh = 't') ∧ ¬(lbraceCh = 'f') ∧ ¬(lbraceCh = '"') ∧
      ¬(lbraceCh = '-') ∧ ¬(lbraceCh = '[') ∧ ¬('"' = rbraceCh) := by
  refine ⟨?_, ?_, ?_, ?_, ?_, ?_, ?_⟩ <;> decide

theorem parse_print_all (fuel : Nat) :
    (∀ j rest, (printJson j ++ rest).length < fuel →
      (∀ c, rest.head? = some c → isDigitCh c = false) →
      parseValue fuel (printJson j ++ rest) = some (j, rest)) ∧
    (∀ xs rest, (printArrRest xs ++ rest).length < fuel →
      parseArrRest fuel (printArrRest xs ++ rest) = some (xs, rest)) ∧
    (∀ kv rest, (printField kv ++ rest).length < fuel →
      (∀ c, rest.head? = some c → isDigitCh c = false) →
      parseField fuel (printField kv ++ rest) = some (kv, rest)) ∧
    (∀ fs rest, (printObjRest fs ++ rest).length < fuel →
      parseObjRest fuel (printObjRest fs ++ rest) = some (fs, rest)) := by
  induction fuel with
  | zero =>
    refine ⟨?_, ?_, ?_, ?_⟩ <;> intro a rest hlen <;> exact absurd hlen (by omega)
  | succ f ih =>
    obtain ⟨ihv, iha, ihf, iho⟩ := ih
    refine ⟨?_, ?_, ?_, ?_⟩
    · intro j rest hlen hrest
      cases j with
      | null =>
        simp only [printJson, nullTok, List.cons_append, List.nil_append] at hlen ⊢
        simp [parseValue]
      | bool b =>
        cases b <;>
          simp only [printJson, trueTok, falseTok, List.cons_append,
            List.nil_append] at hlen ⊢ <;>
          simp [parseValue]
      | num n =>
        show parseValue (f + 1) (intToDec n ++ rest) = _
        unfold intToDec
        by_cases hneg : n < 0
        · rw [if_pos hneg]
          simp only [List.cons_append]
          have hn : (-(n.natAbs : Int)) = n := by omega
          have hn2 : -|n| = n := by rw [abs_of_neg hneg, neg_neg]
          simp [parseValue, parseNat_roundtrip n.natAbs rest hrest, hn, hn2]
        · rw [if_neg hneg]
          rcases hnd : natToDec n.toNat with _ | ⟨d, ds⟩
          · exact absurd hnd (natToDec_ne_nil _)
          · have hdig : isDigitCh d = true := by
              have hb := natToDec_digits n.toNat d (by rw [hnd]; exact List.mem_cons_self d ds)
              unfold isDigitCh
              simp only [Bool.and_eq_true, decide_eq_true_eq]
              omega
            obtain ⟨k1, k2, k3, k4, k5⟩ := digit_head_not_keyword hdig
            rw [List.cons_append]
            simp only [parseValue]
            rw [if_neg k1, if_neg k2, if_neg k3, if_neg k4, if_neg k5, if_pos hdig]
            rw [show d :: (ds ++ rest) = natToDec n.toNat ++ rest by
              rw [hnd, List.cons_append]]
            have hn : ((n.toNat : Int)) = n := by omega
            simp [parseNat_roundtrip n.toNat rest hrest, hn]
      | str s =>
        show parseValue (f + 1) (('"' :: (escStr s ++ ['"'])) ++ rest) = _
        simp only [List.cons_append, List.append_assoc, List.nil_append]
        have hf2 : (escStr s).length < f := by
          simp only [printJson, List.cons_append, List.append_assoc, List.length_cons,
            List.length_append, List.nil_append] at hlen
          omega
        simp [parseValue, parseStrBody_roundtrip s rest f hf2]
      | arr xs =>
        cases xs with
        | nil =>
          simp only [printJson, List.cons_append, List.nil_append] at hlen ⊢
          simp [parseValue, isDigitCh_lbracket]
        | cons x xs' =>
          show parseValue (f + 1) (('[' :: (printJson x ++ printArrRest xs')) ++ rest) = _
          simp only [List.cons_append, List.append_assoc]
          obtain ⟨d, ds, hds, hdh⟩ := printJson_head x
          obtain ⟨hne1, _⟩ := valueHead_ne_closers hdh
          have hlen' : (printJson x ++ (printArrRest xs' ++ rest)).length < f := by
            simp only [printJson, printArrRest, printField, printObjRest, List.cons_append,
              List.nil_append, List.length_cons, List.length_append,
              List.append_assoc] at hlen ⊢
            omega
          obtain ⟨e, es, hes, heh⟩ := printArrRest_head xs'
          have hrest' : ∀ c, (printArrRest xs' ++ rest).head? = some c → isDigitCh c = false := by
            intro c hc
            rw [hes, List.cons_append, List.head?_cons] at hc
            cases hc
            exact sepHead_not_digit heh
          have hv := ihv x (printArrRest xs' ++ rest) hlen' hrest'
          have ha := iha xs' rest (by
            simp only [printJson, printArrRest, printField, printObjRest, List.cons_append,
              List.nil_append, List.length_cons, List.length_append,
              List.append_assoc] at hlen ⊢
            omega)
          rw [hds, List.cons_append] at hv ⊢
          simp [parseValue, isDigitCh_lbracket, hne1, hv, ha]
      | obj fs =>
        cases fs with
        | nil =>
          show parseValue (f + 1) ([lbraceCh, rbraceCh] ++ rest) = _
          simp only [List.cons_append, List.nil_append]
          obtain ⟨l1, l2, l3, l4, l5, l6, l7⟩ := lbraceCh_ne_keywords
          simp [parseValue, isDigitCh_lbrace, l1, l2, l3, l4, l5, l6]
        | cons kv fs' =>
          show parseValue (f + 1) ((lbraceCh :: (printField kv ++ printObjRest fs')) ++ rest) = _
          simp only [List.cons_append, List.append_assoc]
          obtain ⟨k, v⟩ := kv
          have hlen' : (printField (k, v) ++ (printObjRest fs' ++ rest)).length < f := by
            simp only [printJson, printArrRest, printField, printObjRest, List.cons_append,
              List.nil_append, List.length_cons, List.length_append,
              List.append_assoc] at hlen ⊢
            omega
          obtain ⟨e, es, hes, heh⟩ := printObjRest_head fs'
          have hrest' : ∀ c, (printObjRest fs' ++ rest).head? = some c → isDigitCh c = false := by
            intro c hc
            rw [hes, List.cons_append, List.head?_cons] at hc
            cases hc
            exact objSepHead_not_digit heh
          have hfd := ihf (k, v) (printObjRest fs' ++ rest) hlen' hrest'
          have ho := iho fs' rest (by
            simp only [printJson, printArrRest, printField, printObjRest, List.cons_append,
              List.nil_append, List.length_cons, List.length_append,
              List.append_assoc] at hlen ⊢
            omega)
          have hpf : printField (k, v) = '"' :: (escStr k ++ '"' :: ':' :: printJson v) := rfl
          rw [hpf, List.cons_append] at hfd ⊢
          simp only [List.cons_append, List.append_assoc] at hfd ⊢
          obtain ⟨l1, l2, l3, l4, l5, l6, l7⟩ := lbraceCh_ne_keywords
          simp [parseValue, isDigitCh_lbrace, l1, l2, l3, l4, l5, l6, l7, hfd, ho]
    · intro xs rest hlen
      cases xs with
      | nil =>
        simp only [printArrRest, List.cons_append, List.nil_append] at hlen ⊢
        simp [parseArrRest]
      | cons y ys =>
        show parseArrRest (f + 1) ((',' :: (printJson y ++ printArrRest ys)) ++ rest) = _
        simp only [List.cons_append, List.append_assoc]
        have hlen' : (printJson y ++ (printArrRest ys ++ rest)).length < f := by
          simp only [printJson, printArrRest, printField, printObjRest, List.cons_append,
            List.nil_append, List.length_cons, List.length_append,
            List.append_assoc] at hlen ⊢
          omega
        obtain ⟨e, es, hes, heh⟩ := printArrRest_head ys
        have hrest' : ∀ c, (printArrRest ys ++ rest).head? = some c → isDigitCh c = false := by
          intro c hc
          rw [hes, List.cons_append, List.head?_cons] at hc
          cases hc
          exact sepHead_not_digit heh
        have hv := ihv y (printArrRest ys ++ rest) hlen' hrest'
        have ha := iha ys rest (by
          simp only [printJson, printArrRest, printField, printObjRest, List.cons_append,
            List.nil_append, List.length_cons, List.length_append,
            List.append_assoc] at hlen ⊢
          omega)
        simp [parseArrRest, hv, ha]
    · intro kv rest hlen hrest
      obtain ⟨k, v⟩ := kv
      show parseField (f + 1) (('"' :: (escStr k ++ '"' :: ':' :: printJson v)) ++ rest) = _
      simp only [List.cons_append, List.append_assoc]
      have hsb := parseStrBody_roundtrip k (':' :: (printJson v ++ rest)) f (by
        simp only [printJson, printArrRest, printField, printObjRest, List.cons_append,
          List.nil_append, List.length_cons, List.length_append,
          List.append_assoc] at hlen ⊢
        omega)
      have hv := ihv v rest (by
        simp only [printJson, printArrRest, printField, printObjRest, List.cons_append,
          List.nil_append, List.length_cons, List.length_append,
          List.append_assoc] at hlen ⊢
        omega) hrest
      simp [parseField, hsb, hv]
    · intro fs rest hlen
      cases fs with
      | nil =>
        show parseObjRest (f + 1) ([rbraceCh] ++ rest) = _
        simp only [List.cons_append, List.nil_append]
        simp [parseObjRest]
      | cons kv fs' =>
        show parseObjRest (f + 1) ((',' :: (printField kv ++ printObjRest fs')) ++ rest) = _
        simp only [List.cons_append, List.append_assoc]
        have hlen' : (printField kv ++ (printObjRest fs' ++ rest)).length < f := by
          simp only [printJson, printArrRest, printField, printObjRest, List.cons_append,
            List.nil_append, List.length_cons, List.length_append,
            List.append_assoc] at hlen ⊢
          omega
        obtain ⟨e, es, hes, heh⟩ := printObjRest_head fs'
        have hrest' : ∀ c, (printObjRest fs' ++ rest).head? = some c → isDigitCh c = false := by
          intro c hc
          rw [hes, List.cons_append, List.head?_cons] at hc
          cases hc
          exact objSepHead_not_digit heh
        have hfd := ihf kv (printObjRest fs' ++ rest) hlen' hrest'
        have ho := iho fs' rest (by
          simp only [printJson, printArrRest, printField, printObjRest, List.cons_append,
            List.nil_append, List.length_cons, List.length_append,
            List.append_assoc] at hlen ⊢
          omega)
        have hcomma : ¬(',' = rbraceCh) := by decide
        simp [parseObjRest, hcomma, hfd, ho]

theorem parseJson_printJson (j : Json) : parseJson (printJson j) = some j := by
  unfold parseJson
  have h := (parse_print_all ((printJson j).length + 1)).1 j []
    (by simp) (by intro c hc; cases hc)
  rw [List.append_nil] at h
  rw [h]

/-- C10: `createContentMessageId` returns the hexadecimal rendering of
the 32-bit content hash, an underscore, and the decimal timestamp; the
hash part never contains an underscore, so envelopes with different
timestamps always receive different identities (equivalently, an
identity collision forces equal timestamps). -/
theorem claim_C10 :
    (∀ ty ts senderId payload,
      createContentMessageId ty ts senderId payload =
        intToHex (contentHash (ty ++ ':' :: natToDec ts ++ ':' :: senderId ++ ':' :: payload))
          ++ '_' :: natToDec ts) ∧
    (∀ content, -2 ^ 31 ≤ contentHash content ∧ contentHash content < 2 ^ 31) ∧
    (∀ i, ∀ c ∈ intToHex i, c ≠ '_') ∧
    (∀ ty ts senderId payload ty' ts' senderId' payload', ts ≠ ts' →
      createContentMessageId ty ts senderId payload ≠
        createContentMessageId ty' ts' senderId' payload') := by
  refine ⟨fun ty ts senderId payload => rfl, contentHash_range, intToHex_no_underscore, ?_⟩
  intro ty ts senderId payload ty' ts' senderId' payload' hts heq
  unfold createContentMessageId at heq
  have := underscore_split _ _ _ _ (intToHex_no_underscore _) (intToHex_no_underscore _) heq
  exact hts (natToDec_injective this.2)

/-- Witness for C10 at concrete inputs: timestamps 1000 and 1001 give
distinct identities. -/
theorem claim_C10_witness :
    (1000 : Nat) ≠ 1001 ∧
      createContentMessageId "PING".toList 1000 "u1".toList "p".toList ≠
        createContentMessageId "PING".toList 1001 "u1".toList "p".toList :=
  ⟨by decide, claim_C10.2.2.2 "PING".toList 1000 "u1".toList "p".toList
    "PING".toList 1001 "u1".toList "p".toList (by decide)⟩

/-! ## Association-list (JavaScript `Map`) lemmas -/

theorem lookupA_setA_self {β : Type} (l : List (Str × β)) (k : Str) (v : β) :
    lookupA (setA l k v) k = some v := by
  induction l with
  | nil => simp [setA, lookupA]
  | cons p t ih =>
    obtain ⟨k0, v0⟩ := p
    by_cases h0 : k0 = k
    · simp only [setA]
      rw [if_pos h0]
      simp [lookupA]
    · simp only [setA]
      rw [if_neg h0]
      simp only [lookupA]
      rw [if_neg h0]
      exact ih

theorem lookupA_setA_ne {β : Type} (l : List (Str × β)) (k k' : Str) (v : β) (h : k' ≠ k) :
    lookupA (setA l k v) k' = lookupA l k' := by
  have hk : ¬k = k' := fun hh => h hh.symm
  induction l with
  | nil =>
    simp only [setA, lookupA]
    rw [if_neg hk]
  | cons p t ih =>
    obtain ⟨k0, v0⟩ := p
    by_cases h0 : k0 = k
    · subst h0
      simp only [setA, if_pos rfl, lookupA]
      rw [if_neg hk, if_neg hk]
    · simp only [setA]
      rw [if_neg h0]
      simp only [lookupA]
      by_cases h1 : k0 = k'
      · rw [if_pos h1, if_pos h1]
      · rw [if_neg h1, if_neg h1]
        exact ih

theorem setA_self_of_lookup {β : Type} (l : List (Str × β)) (k : Str) (v : β)
    (h : lookupA l k = some v) : setA l k v = l := by
  induction l with
  | nil => simp [lookupA] at h
  | cons p t ih =>
    obtain ⟨k0, v0⟩ := p
    by_cases h0 : k0 = k
    · subst h0
      have hv : v0 = v := by
        simp [lookupA] at h
        exact h
      subst hv
      simp [setA]
    · simp only [lookupA, if_neg h0] at h
      simp only [setA]
      rw [if_neg h0, ih h]

theorem lookupA_removeA_self {β : Type} (l : List (Str × β)) (k : Str) :
    lookupA (removeA l k) k = none := by
  induction l with
  | nil => simp [removeA, lookupA]
  | cons p t ih =>
    obtain ⟨k0, v0⟩ := p
    by_cases h0 : k0 = k
    · simp only [removeA]
      rw [if_pos h0]
      exact ih
    · simp only [removeA]
      rw [if_neg h0]
      simp only [lookupA]
      rw [if_neg h0]
      exact ih

theorem lookupA_removeA_ne {β : Type} (l : List (Str × β)) (k k' : Str) (h : k' ≠ k) :
    lookupA (removeA l k) k' = lookupA l k' := by
  induction l with
  | nil => simp [removeA]
  | cons p t ih =>
    obtain ⟨k0, v0⟩ := p
    by_cases h0 : k0 = k
    · subst h0
      have hr : removeA ((k0, v0) :: t) k0 = removeA t k0 := by
        simp [removeA]
      rw [hr, ih]
      simp only [lookupA]
      rw [if_neg (fun hh => h hh.symm)]
    · simp only [removeA]
      rw [if_neg h0]
      simp only [lookupA]
      by_cases h1 : k0 = k'
      · rw [if_pos h1, if_pos h1]
      · rw [if_neg h1, if_neg h1]
        exact ih

theorem jsSetAdd_mem_unchanged {α : Type} [DecidableEq α] (l : List α) (x : α) (h : x ∈ l) :
    jsSetAdd l x = l := by
  simp [jsSetAdd, h]

/-! ## C2: codec round-trip -/

/-- C2: for every envelope whose timestamp is an exactly representable
integer (below `2^53`; epoch milliseconds are far below), the receive
path's decode of the send path's encode reconstructs the same four
field values. -/
theorem claim_C2 (m : WakuMessage) (h : m.timestamp < 2 ^ 53) :
    decodeReceived (dataPacketOfMessage m m.senderId) = some m := by
  obtain ⟨ty, ts, sid, p⟩ := m
  simp only [WakuMessage.timestamp] at h
  unfold decodeReceived dataPacketOfMessage
  simp only [parseJson_printJson]
  have hmod : ts % 2 ^ 64 = ts := Nat.mod_eq_of_lt (by omega)
  have hnum : jsNumberOfUint64 ts = ts := by
    unfold jsNumberOfUint64
    rw [if_pos h]
  rw [hmod, hnum]

/-- Witness for C2 at scenario A's envelope. -/
theorem claim_C2_witness :
    (1000 : Nat) < 2 ^ 53 ∧
      decodeReceived (dataPacketOfMessage ⟨"PING".toList, 1000, "u1".toList, Json.obj []⟩
          "u1".toList) =
        some ⟨"PING".toList, 1000, "u1".toList, Json.obj []⟩ :=
  ⟨by norm_num, claim_C2 ⟨"PING".toList, 1000, "u1".toList, Json.obj []⟩ (by norm_num)⟩

/-! ## C3: send before join -/

/-- C3: calling `sendMessage` for a room with no channel entry throws
(`NotJoinedError`), leaves the state unchanged, and produces no
observable effect: no `channel.send`, no callback registration, no
callback invocation. -/
theorem claim_C3 (s : WakuState) (instanceId : Str) (message : WakuMessage)
    (senderId : Str) (callbacks : Option MessageCallbacks) (handle : Str)
    (h : instanceId ∉ s.channels) :
    sendMessage s instanceId message senderId callbacks handle =
      (.error ("Not connected to channel (NotJoinedError)".toList), s, []) := by
  unfold sendMessage
  rw [if_neg h]

/-- Witness for C3: sending to an unjoined room in the empty state. -/
theorem claim_C3_witness :
    "R1".toList ∉ (WakuState.mk [] [] [] [] ⟨false, []⟩).channels ∧
      sendMessage (WakuState.mk [] [] [] [] ⟨false, []⟩) "R1".toList
          ⟨"PING".toList, 1000, "u1".toList, Json.obj []⟩ "u1".toList none "h1".toList =
        (.error ("Not connected to channel (NotJoinedError)".toList),
          WakuState.mk [] [] [] [] ⟨false, []⟩, []) :=
  ⟨by simp, claim_C3 _ _ _ _ _ _ (by simp)⟩

/-! ## C8: persistence failure tolerance -/

theorem saveProcessedIds_fail (st : Storage) (r : Str) (ids : List Str) (h : st.fail = true) :
    saveProcessedIds st r ids = st := by
  unfold saveProcessedIds setItem
  simp [h]

theorem loadProcessedIds_fail (st : Storage) (r : Str) (h : st.fail = true) :
    loadProcessedIds st r = [] := by
  unfold loadProcessedIds getItem
  rw [if_pos h]

theorem loadProcessedIds_missing (st : Storage) (r : Str) (hf : st.fail = false)
    (h : lookupA st.data (storageKey r) = none) : loadProcessedIds st r = [] := by
  unfold loadProcessedIds getItem
  rw [if_neg (by simp [hf]), h]

theorem loadProcessedIds_corrupt (st : Storage) (r : Str) (raw : Str) (hf : st.fail = false)
    (h : lookupA st.data (storageKey r) = some raw) (hp : parseJson raw = none) :
    loadProcessedIds st r = [] := by
  unfold loadProcessedIds getItem
  rw [if_neg (by simp [hf]), h]
  simp [hp]

theorem handleMessageReceived_fail_run (s : WakuState) (r : Str) (w : DataPacketWire) :
    handleMessageReceived { s with storage := ⟨true, s.storage.data⟩ } r w =
      ({ (handleMessageReceived s r w).1 with storage := ⟨true, s.storage.data⟩ },
        (handleMessageReceived s r w).2) := by
  have hsave : ∀ (r' : Str) (ids : List Str),
      saveProcessedIds ⟨true, s.storage.data⟩ r' ids = ⟨true, s.storage.data⟩ :=
    fun r' ids => saveProcessedIds_fail _ _ _ rfl
  unfold handleMessageReceived
  rcases hl : lookupA s.processedMessageIds r with _ | ids
  · simp only [hl, lookupA_setA_self, Option.getD_some, Option.getD_none, List.not_mem_nil,
      if_false, List.nil_append]
    by_cases hsp : shouldPersistType w.type = true <;>
      rcases hp : parseJson w.payload with _ | p <;>
        simp [hsp, hp, hsave, evictOld, MAX_PROCESSED_IDS]
  · simp only [hl, Option.getD_some]
    by_cases hm : createContentMessageId w.type w.timestamp w.senderId w.payload ∈ ids
    · simp [hm]
    · by_cases hsp : shouldPersistType w.type = true <;>
        by_cases hln : (ids ++ [createContentMessageId w.type w.timestamp w.senderId
            w.payload]).length > MAX_PROCESSED_IDS <;>
          rcases hp : parseJson w.payload with _ | p <;>
            simp [hm, hsp, hln, hp, hsave, evictOld]

/-- C8: the deduplication store's load returns the empty set (without
throwing — it is a total function whose catch branches are explicit)
when the storage read throws, the key is missing, or the stored value
fails to parse; the persist operation swallows write failures (it is
total and leaves storage unchanged when the write throws); and a
failing storage backend changes neither the receive path's in-memory
effects nor its observable outputs — only the storage component
differs (nothing is written). -/
theorem claim_C8 :
    (∀ (st : Storage) (r : Str), st.fail = true → loadProcessedIds st r = []) ∧
    (∀ (st : Storage) (r : Str), st.fail = false →
      lookupA st.data (storageKey r) = none → loadProcessedIds st r = []) ∧
    (∀ (st : Storage) (r raw : Str), st.fail = false →
      lookupA st.data (storageKey r) = some raw → parseJson raw = none →
      loadProcessedIds st r = []) ∧
    (∀ (st : Storage) (r : Str) (ids : List Str), st.fail = true →
      saveProcessedIds st r ids = st) ∧
    (∀ (s : WakuState) (r : Str) (w : DataPacketWire),
      handleMessageReceived { s with storage := ⟨true, s.storage.data⟩ } r w =
        ({ (handleMessageReceived s r w).1 with storage := ⟨true, s.storage.data⟩ },
          (handleMessageReceived s r w).2)) :=
  ⟨loadProcessedIds_fail, loadProcessedIds_missing, loadProcessedIds_corrupt,
    saveProcessedIds_fail, handleMessageReceived_fail_run⟩

/-- Witness for C8: a throwing read, a missing key, a corrupt stored
value, and a throwing write, each at concrete inputs. -/
theorem claim_C8_witness :
    ((⟨true, []⟩ : Storage).fail = true ∧ loadProcessedIds ⟨true, []⟩ "R1".toList = []) ∧
    (lookupA ([] : List (Str × Str)) (storageKey "R1".toList) = none ∧
      loadProcessedIds ⟨false, []⟩ "R1".toList = []) ∧
    (parseJson "corrupt".toList = none ∧
      loadProcessedIds ⟨false, [(storageKey "R1".toList, "corrupt".toList)]⟩ "R1".toList = []) ∧
    saveProcessedIds ⟨true, []⟩ "R1".toList ["x".toList] = ⟨true, []⟩ :=
  ⟨⟨rfl, claim_C8.1 ⟨true, []⟩ "R1".toList rfl⟩,
    ⟨rfl, claim_C8.2.1 ⟨false, []⟩ "R1".toList rfl rfl⟩,
    ⟨rfl, claim_C8.2.2.1 ⟨false, [(storageKey "R1".toList, "corrupt".toList)]⟩ "R1".toList
      "corrupt".toList rfl rfl rfl⟩,
    claim_C8.2.2.2.1 ⟨true, []⟩ "R1".toList ["x".toList] rfl⟩

/-! ## Receive-path helper lemmas -/

/-- A duplicate delivery: the handler emits only the generic
observability record and leaves the state unchanged. -/
theorem handleMessageReceived_dup (s : WakuState) (r : Str) (w : DataPacketWire)
    (h : createContentMessageId w.type w.timestamp w.senderId w.payload ∈ storeOf s r) :
    handleMessageReceived s r w =
      (s, [Output.sds "in".toList "message-received".toList r]) := by
  unfold storeOf at h
  rcases hl : lookupA s.processedMessageIds r with _ | ids
  · rw [hl] at h
    simp at h
  · rw [hl] at h
    simp only [Option.getD_some] at h
    unfold handleMessageReceived
    simp [hl, h]

/-- A fresh delivery with a decodable payload fans out to exactly the
room's listeners, in order, after the generic observability record. -/
theorem handleMessageReceived_fresh_outs (s : WakuState) (r : Str) (w : DataPacketWire) (p : Json)
    (h : createContentMessageId w.type w.timestamp w.senderId w.payload ∉ storeOf s r)
    (hp : parseJson w.payload = some p) :
    (handleMessageReceived s r w).2 =
      Output.sds "in".toList "message-received".toList r ::
        (listenersOf s r).map (fun l => Output.notify r l
          ⟨w.type, jsNumberOfUint64 w.timestamp, w.senderId, p⟩) := by
  unfold storeOf at h
  unfold listenersOf
  rcases hl : lookupA s.processedMessageIds r with _ | ids <;>
    rw [hl] at h <;>
    simp only [Option.getD_none, Option.getD_some] at h <;>
    unfold handleMessageReceived <;>
    rcases hll : lookupA s.channelListeners r with _ | ls <;>
      simp [hl, hll, h, hp, lookupA_setA_self]

/-- A fresh delivery records the content id (with eviction) in the
room's store, whether or not the payload decodes. -/
theorem handleMessageReceived_fresh_store (s : WakuState) (r : Str) (w : DataPacketWire)
    (h : createContentMessageId w.type w.timestamp w.senderId w.payload ∉ storeOf s r) :
    storeOf (handleMessageReceived s r w).1 r =
      evictOld (storeOf s r ++
        [createContentMessageId w.type w.timestamp w.senderId w.payload]) := by
  unfold storeOf at h ⊢
  rcases hl : lookupA s.processedMessageIds r with _ | ids <;>
    rw [hl] at h <;>
    simp only [Option.getD_none, Option.getD_some] at h <;>
    unfold handleMessageReceived <;>
    rcases hp : parseJson w.payload with _ | p <;>
      simp [hl, h, hp, lookupA_setA_self]

/-- The receive handler never modifies the channel set, the listener
sets or the callback maps. -/
theorem handleMessageReceived_frame (s : WakuState) (r : Str) (w : DataPacketWire) :
    (handleMessageReceived s r w).1.channels = s.channels ∧
    (handleMessageReceived s r w).1.channelListeners = s.channelListeners ∧
    (handleMessageReceived s r w).1.messageCallbacks = s.messageCallbacks := by
  unfold handleMessageReceived
  rcases hl : lookupA s.processedMessageIds r with _ | ids
  · rcases hp : parseJson w.payload with _ | p <;>
      rcases hll : lookupA s.channelListeners r with _ | ls <;>
        simp [hl, hp, hll, lookupA_setA_self]
  · by_cases hm : createContentMessageId w.type w.timestamp w.senderId w.payload ∈ ids
    · simp [hl, hm]
    · rcases hp : parseJson w.payload with _ | p <;>
        rcases hll : lookupA s.channelListeners r with _ | ls <;>
          simp [hl, hm, hp, hll, lookupA_setA_self]

theorem evictOld_length_le (l : List Str) : (evictOld l).length ≤ MAX_PROCESSED_IDS := by
  unfold evictOld
  split
  · rw [List.length_drop]
    omega
  · omega

theorem mem_evictOld_append_self (l : List Str) (id : Str) : id ∈ evictOld (l ++ [id]) := by
  unfold evictOld
  split
  · have hk : (l ++ [id]).length - MAX_PROCESSED_IDS ≤ l.length := by
      simp only [List.length_append, List.length_singleton]
      unfold MAX_PROCESSED_IDS
      omega
    rw [List.drop_append_of_le_length hk]
    simp
  · simp

theorem notifyOutputs_map_notify (r : Str) (ls : List Nat) (m : WakuMessage) :
    notifyOutputs (ls.map fun l => Output.notify r l m) =
      ls.map fun l => Output.notify r l m := by
  induction ls with
  | nil => rfl
  | cons a t ih =>
    simp only [List.map_cons, notifyOutputs, List.filter_cons, if_true]
    unfold notifyOutputs at ih
    rw [ih]

theorem dedupFirst_mem {α : Type} [DecidableEq α] (l : List α) (x : α) :
    x ∈ dedupFirst l ↔ x ∈ l := by
  have key : ∀ (l : List α) (acc : List α),
      x ∈ l.foldl jsSetAdd acc ↔ x ∈ acc ∨ x ∈ l := by
    intro l
    induction l with
    | nil => intro acc; simp
    | cons a t ih =>
      intro acc
      rw [List.foldl_cons, ih (jsSetAdd acc a)]
      unfold jsSetAdd
      split
      · rename_i hmem
        constructor
        · rintro (h | h)
          · exact Or.inl h
          · exact Or.inr (List.mem_cons_of_mem a h)
        · rintro (h | h)
          · exact Or.inl h
          · rcases List.mem_cons.1 h with rfl | h
            · exact Or.inl hmem
            · exact Or.inr h
      · constructor
        · rintro (h | h)
          · rcases List.mem_append.1 h with h | h
            · exact Or.inl h
            · rw [List.mem_singleton] at h
              exact Or.inr (h ▸ List.mem_cons_self a t)
          · exact Or.inr (List.mem_cons_of_mem a h)
        · rintro (h | h)
          · exact Or.inl (List.mem_append.2 (Or.inl h))
          · rcases List.mem_cons.1 h with rfl | h
            · exact Or.inl (List.mem_append.2 (Or.inr (List.mem_singleton_self x)))
            · exact Or.inr h
  unfold dedupFirst
  rw [key l []]
  simp

/-! ## C1: transport-level redelivery is deduplicated -/

/-- C1: in a joined room, delivering the same wire bytes twice fires
the room's listeners exactly once — the first run fans out to exactly
the registered listeners, the second run (which computes the same
content identity and finds it stored) produces no fan-out and leaves
the store's contents unchanged — and inserting an already present
identity into a JavaScript set leaves it unchanged. -/
theorem claim_C1 (s : WakuState) (r : Str) (w : DataPacketWire) (p : Json)
    (_hch : r ∈ s.channels)
    (hm : createContentMessageId w.type w.timestamp w.senderId w.payload ∉ storeOf s r)
    (hp : parseJson w.payload = some p) :
    notifyOutputs (handleMessageReceived s r w).2 =
      (listenersOf s r).map (fun l => Output.notify r l
        ⟨w.type, jsNumberOfUint64 w.timestamp, w.senderId, p⟩) ∧
    notifyOutputs (handleMessageReceived (handleMessageReceived s r w).1 r w).2 = [] ∧
    storeOf (handleMessageReceived (handleMessageReceived s r w).1 r w).1 r =
      storeOf (handleMessageReceived s r w).1 r ∧
    (∀ (l : List Str) (id : Str), id ∈ l → jsSetAdd l id = l) := by
  have hmem2 : createContentMessageId w.type w.timestamp w.senderId w.payload ∈
      storeOf (handleMessageReceived s r w).1 r := by
    rw [handleMessageReceived_fresh_store s r w hm]
    exact mem_evictOld_append_self _ _
  have hdup := handleMessageReceived_dup (handleMessageReceived s r w).1 r w hmem2
  refine ⟨?_, ?_, ?_, fun l id h => jsSetAdd_mem_unchanged l id h⟩
  · rw [handleMessageReceived_fresh_outs s r w p hm hp]
    show notifyOutputs ((listenersOf s r).map fun l => Output.notify r l _) = _
    exact notifyOutputs_map_notify _ _ _
  · rw [hdup]
    rfl
  · rw [hdup]

/-- Witness for C1: a room with one listener and an empty store. -/
theorem claim_C1_witness :
    ("R1".toList ∈ (WakuState.mk ["R1".toList] [("R1".toList, [5])] [("R1".toList, [])]
        [("R1".toList, [])] ⟨false, []⟩).channels) ∧
    (createContentMessageId "PING".toList 1000 "u1".toList "null".toList ∉
      storeOf (WakuState.mk ["R1".toList] [("R1".toList, [5])] [("R1".toList, [])]
        [("R1".toList, [])] ⟨false, []⟩) "R1".toList) ∧
    parseJson "null".toList = some Json.null ∧
    notifyOutputs (handleMessageReceived (WakuState.mk ["R1".toList] [("R1".toList, [5])]
        [("R1".toList, [])] [("R1".toList, [])] ⟨false, []⟩) "R1".toList
        ⟨"PING".toList, 1000, "u1".toList, "null".toList⟩).2 =
      (listenersOf (WakuState.mk ["R1".toList] [("R1".toList, [5])] [("R1".toList, [])]
        [("R1".toList, [])] ⟨false, []⟩) "R1".toList).map
        (fun l => Output.notify "R1".toList l
          ⟨"PING".toList, jsNumberOfUint64 1000, "u1".toList, Json.null⟩) :=
  ⟨by decide, by decide, rfl,
    (claim_C1 (WakuState.mk ["R1".toList] [("R1".toList, [5])] [("R1".toList, [])]
      [("R1".toList, [])] ⟨false, []⟩) "R1".toList
      ⟨"PING".toList, 1000, "u1".toList, "null".toList⟩ Json.null
      (by decide) (by decide) rfl).1⟩

/-! ## C6: duplicate handling and observability -/

/-- C6 (amended): a duplicate inbound message is discarded with no
application fan-out and no state change; the only observability record
emitted for it is the generic `message-received` record (emitted for
every delivery) — no dedicated `duplicate` record exists. -/
theorem claim_C6 (s : WakuState) (r : Str) (w : DataPacketWire)
    (h : createContentMessageId w.type w.timestamp w.senderId w.payload ∈ storeOf s r) :
    handleMessageReceived s r w =
      (s, [Output.sds "in".toList "message-received".toList r]) ∧
    notifyOutputs (handleMessageReceived s r w).2 = [] ∧
    (∀ o ∈ (handleMessageReceived s r w).2, isDuplicateRecord o = false) := by
  have hd := handleMessageReceived_dup s r w h
  refine ⟨hd, by rw [hd]; rfl, ?_⟩
  rw [hd]
  intro o ho
  rw [List.mem_singleton] at ho
  subst ho
  rfl

set_option maxRecDepth 8000 in
/-- Counterexample for C6 as stated: at a concrete duplicate delivery
the handler emits no observability record named `duplicate` (the claim
asserts one is emitted). -/
theorem claim_C6_cex :
    createContentMessageId "T".toList 5 "u".toList "x".toList ∈
      storeOf (WakuState.mk ["R".toList] []
        [("R".toList, [createContentMessageId "T".toList 5 "u".toList "x".toList])] []
        ⟨false, []⟩) "R".toList ∧
    ((handleMessageReceived (WakuState.mk ["R".toList] []
        [("R".toList, [createContentMessageId "T".toList 5 "u".toList "x".toList])] []
        ⟨false, []⟩) "R".toList ⟨"T".toList, 5, "u".toList, "x".toList⟩).2.all
      fun o => !isDuplicateRecord o) = true :=
  ⟨by decide, by decide⟩

set_option maxRecDepth 8000 in
/-- Witness for C6 at the same concrete duplicate delivery. -/
theorem claim_C6_witness :
    createContentMessageId "T".toList 5 "u".toList "x".toList ∈
      storeOf (WakuState.mk ["R".toList] []
        [("R".toList, [createContentMessageId "T".toList 5 "u".toList "x".toList])] []
        ⟨false, []⟩) "R".toList ∧
    notifyOutputs (handleMessageReceived (WakuState.mk ["R".toList] []
        [("R".toList, [createContentMessageId "T".toList 5 "u".toList "x".toList])] []
        ⟨false, []⟩) "R".toList ⟨"T".toList, 5, "u".toList, "x".toList⟩).2 = [] :=
  ⟨by decide,
    (claim_C6 (WakuState.mk ["R".toList] []
      [("R".toList, [createContentMessageId "T".toList 5 "u".toList "x".toList])] []
      ⟨false, []⟩) "R".toList ⟨"T".toList, 5, "u".toList, "x".toList⟩ (by decide)).2.1⟩

/-! ## C4: bounded store with FIFO eviction -/

theorem foldl_recordId_eq (ids : List Str) (hnd : ids.Nodup) :
    List.foldl recordId [] ids = ids.drop (ids.length - MAX_PROCESSED_IDS) := by
  induction ids using List.reverseRecOn with
  | nil => simp
  | append_singleton xs x ih =>
    rw [List.nodup_append] at hnd
    obtain ⟨hxs, _, hdisj⟩ := hnd
    have hx : x ∉ xs := fun hmem => hdisj hmem (List.mem_singleton_self x)
    rw [List.foldl_concat, ih hxs]
    have hx2 : x ∉ xs.drop (xs.length - MAX_PROCESSED_IDS) :=
      fun hc => hx (List.mem_of_mem_drop hc)
    unfold recordId
    rw [if_neg hx2]
    have hlen : (xs.drop (xs.length - MAX_PROCESSED_IDS)).length =
        xs.length - (xs.length - MAX_PROCESSED_IDS) := List.length_drop _ _
    unfold evictOld
    by_cases hM : MAX_PROCESSED_IDS ≤ xs.length
    · have hMpos : 1 ≤ MAX_PROCESSED_IDS := by decide
      have hcond : MAX_PROCESSED_IDS <
          (xs.drop (xs.length - MAX_PROCESSED_IDS) ++ [x]).length := by
        rw [List.length_append, hlen]
        simp only [List.length_singleton]
        omega
      rw [if_pos hcond]
      have hamount : (xs.drop (xs.length - MAX_PROCESSED_IDS) ++ [x]).length -
          MAX_PROCESSED_IDS = 1 := by
        rw [List.length_append, hlen]
        simp only [List.length_singleton]
        omega
      rw [hamount, List.drop_append_of_le_length (by rw [hlen]; omega),
        List.drop_drop]
      have hrhs : (xs ++ [x]).length - MAX_PROCESSED_IDS =
          xs.length + 1 - MAX_PROCESSED_IDS := by
        rw [List.length_append]
        simp
      rw [hrhs, List.drop_append_of_le_length (by omega)]
      have harith : xs.length - MAX_PROCESSED_IDS + 1 =
          xs.length + 1 - MAX_PROCESSED_IDS := by omega
      rw [harith]
    · have h0 : xs.length - MAX_PROCESSED_IDS = 0 := by omega
      rw [h0, List.drop_zero]
      have hcond : ¬MAX_PROCESSED_IDS < (xs ++ [x]).length := by
        rw [List.length_append]
        simp only [List.length_singleton]
        omega
      rw [if_neg hcond]
      have h1 : (xs ++ [x]).length - MAX_PROCESSED_IDS = 0 := by
        rw [List.length_append]
        simp only [List.length_singleton]
        omega
      rw [h1, List.drop_zero]

/-- C4: the store's size never exceeds `MAX_PROCESSED_IDS` after any
handler run; one handler run updates the store exactly by `recordId`
(append-if-new, then FIFO eviction); inserting `MAX + k` distinct
identities into an empty store leaves exactly the `MAX` most recent
(the `k` oldest are evicted); and the persisted value is the JSON
array of the at most `MAX` most recent identities. -/
theorem claim_C4 :
    (∀ (s : WakuState) (r : Str) (w : DataPacketWire),
      (storeOf s r).length ≤ MAX_PROCESSED_IDS →
      (storeOf (handleMessageReceived s r w).1 r).length ≤ MAX_PROCESSED_IDS) ∧
    (∀ (s : WakuState) (r : Str) (w : DataPacketWire),
      storeOf (handleMessageReceived s r w).1 r =
        recordId (storeOf s r)
          (createContentMessageId w.type w.timestamp w.senderId w.payload)) ∧
    (∀ ids : List Str, ids.Nodup →
      List.foldl recordId [] ids = ids.drop (ids.length - MAX_PROCESSED_IDS)) ∧
    (∀ ids : List Str, ids.Nodup → MAX_PROCESSED_IDS ≤ ids.length →
      (List.foldl recordId [] ids).length = MAX_PROCESSED_IDS) ∧
    (∀ (st : Storage) (r : Str) (ids : List Str), st.fail = false →
      lookupA (saveProcessedIds st r ids).data (storageKey r) =
        some (printJson (.arr ((ids.drop (ids.length - MAX_PROCESSED_IDS)).map .str))) ∧
      (ids.drop (ids.length - MAX_PROCESSED_IDS)).length ≤ MAX_PROCESSED_IDS) := by
  refine ⟨?_, ?_, foldl_recordId_eq, ?_, ?_⟩
  · intro s r w h
    by_cases hm : createContentMessageId w.type w.timestamp w.senderId w.payload ∈ storeOf s r
    · rw [handleMessageReceived_dup s r w hm]
      exact h
    · rw [handleMessageReceived_fresh_store s r w hm]
      exact evictOld_length_le _
  · intro s r w
    by_cases hm : createContentMessageId w.type w.timestamp w.senderId w.payload ∈ storeOf s r
    · rw [handleMessageReceived_dup s r w hm]
      unfold recordId
      rw [if_pos hm]
    · rw [handleMessageReceived_fresh_store s r w hm]
      unfold recordId
      rw [if_neg hm]
  · intro ids hnd hM
    rw [foldl_recordId_eq ids hnd, List.length_drop]
    omega
  · intro st r ids hf
    constructor
    · unfold saveProcessedIds setItem
      simp only [hf]
      simp [lookupA_setA_self]
    · rw [List.length_drop]
      omega

/-- Witness for C4: 1005 distinct identities leave exactly the 1000
most recent; a persisted store of three identities is stored whole. -/
theorem claim_C4_witness :
    (((List.range 1005).map natToDec).Nodup ∧
      List.foldl recordId [] ((List.range 1005).map natToDec) =
        ((List.range 1005).map natToDec).drop
          (((List.range 1005).map natToDec).length - MAX_PROCESSED_IDS)) ∧
    (MAX_PROCESSED_IDS ≤ ((List.range 1005).map natToDec).length ∧
      (List.foldl recordId [] ((List.range 1005).map natToDec)).length =
        MAX_PROCESSED_IDS) ∧
    ((⟨false, []⟩ : Storage).fail = false ∧
      (["a".toList].drop (["a".toList].length - MAX_PROCESSED_IDS)).length ≤
        MAX_PROCESSED_IDS) :=
  have hnd : ((List.range 1005).map natToDec).Nodup :=
    List.Nodup.map natToDec_injective (List.nodup_range 1005)
  have hlen : MAX_PROCESSED_IDS ≤ ((List.range 1005).map natToDec).length := by
    simp only [List.length_map, List.length_range]
    decide
  ⟨⟨hnd, claim_C4.2.2.1 _ hnd⟩,
    ⟨hlen, claim_C4.2.2.2.1 _ hnd hlen⟩,
    ⟨rfl, (claim_C4.2.2.2.2 ⟨false, []⟩ "R1".toList ["a".toList] rfl).2⟩⟩

/-! ## C5: delivery-tracker cleanup -/

/-- C5 (amended): a terminal transport event deletes the handle's
callback entry whenever the corresponding terminal callback
(`onAcknowledged` for `message-acknowledged`, `onError` for
`sending-message-irrecoverable-error`) was registered;
`message-possibly-acknowledged` never changes the state; and a
terminal event for one handle leaves every other handle's entry
untouched.  (As stated the claim fails: when the registered callback
set lacks the respective terminal callback, the entry survives the
terminal event — see the counterexample.) -/
theorem claim_C5 :
    (∀ (s : WakuState) (r h : Str) (cbs : MessageCallbacks),
      cbLookup s r h = some cbs → cbs.onAcknowledged = true →
      cbLookup (handleMessageAcknowledged s r h).1 r h = none) ∧
    (∀ (s : WakuState) (r h : Str) (cbs : MessageCallbacks),
      cbLookup s r h = some cbs → cbs.onError = true →
      cbLookup (handleIrrecoverableError s r h).1 r h = none) ∧
    (∀ (s : WakuState) (r h : Str), (handlePossiblyAcknowledged s r h).1 = s) ∧
    (∀ (s : WakuState) (r h h' : Str), h' ≠ h →
      cbLookup (handleMessageAcknowledged s r h).1 r h' = cbLookup s r h' ∧
      cbLookup (handleIrrecoverableError s r h).1 r h' = cbLookup s r h') := by
  refine ⟨?_, ?_, fun s r h => rfl, ?_⟩
  · intro s r h cbs hcb hack
    unfold cbLookup at hcb ⊢
    rcases hm : lookupA s.messageCallbacks r with _ | m
    · simp [hm] at hcb
    · simp only [hm] at hcb
      unfold handleMessageAcknowledged
      simp only [hm, hcb, hack, if_true]
      simp [lookupA_setA_self, lookupA_removeA_self]
  · intro s r h cbs hcb herr
    unfold cbLookup at hcb ⊢
    rcases hm : lookupA s.messageCallbacks r with _ | m
    · simp [hm] at hcb
    · simp only [hm] at hcb
      unfold handleIrrecoverableError
      simp only [hm, hcb, herr, if_true]
      simp [lookupA_setA_self, lookupA_removeA_self]
  · intro s r h h' hne
    constructor
    · unfold cbLookup handleMessageAcknowledged
      rcases hm : lookupA s.messageCallbacks r with _ | m
      · simp [hm]
      · rcases hc : lookupA m h with _ | cbs
        · simp [hm, hc]
        · by_cases hack : cbs.onAcknowledged = true
          · simp [hm, hc, hack, lookupA_setA_self, lookupA_removeA_ne m h h' hne]
          · simp [hm, hc, hack]
    · unfold cbLookup handleIrrecoverableError
      rcases hm : lookupA s.messageCallbacks r with _ | m
      · simp [hm]
      · rcases hc : lookupA m h with _ | cbs
        · simp [hm, hc]
        · by_cases herr : cbs.onError = true
          · simp [hm, hc, herr, lookupA_setA_self, lookupA_removeA_ne m h h' hne]
          · simp [hm, hc, herr]

/-- Counterexample for C5 as stated: a handle registered with only an
`onSending` callback keeps its entry after `message-acknowledged`
fires for it (the claim asserts the entry is then absent). -/
theorem claim_C5_cex :
    cbLookup ((handleMessageAcknowledged
        (WakuState.mk ["R".toList] [] []
          [("R".toList, [("h1".toList, ⟨true, false, false, false⟩)])] ⟨false, []⟩)
        "R".toList "h1".toList).1) "R".toList "h1".toList =
      some ⟨true, false, false, false⟩ := by
  decide

/-- Witness for C5 (amended) at concrete states: entries with the
respective terminal callback are removed, and a terminal event for
`h1` leaves `h2`'s entry in place. -/
theorem claim_C5_witness :
    (cbLookup (WakuState.mk ["R".toList] [] []
        [("R".toList, [("h1".toList, ⟨false, false, true, false⟩)])] ⟨false, []⟩)
        "R".toList "h1".toList = some ⟨false, false, true, false⟩ ∧
      cbLookup ((handleMessageAcknowledged
        (WakuState.mk ["R".toList] [] []
          [("R".toList, [("h1".toList, ⟨false, false, true, false⟩)])] ⟨false, []⟩)
        "R".toList "h1".toList).1) "R".toList "h1".toList = none) ∧
    (cbLookup (WakuState.mk ["R".toList] [] []
        [("R".toList, [("h1".toList, ⟨false, false, false, true⟩)])] ⟨false, []⟩)
        "R".toList "h1".toList = some ⟨false, false, false, true⟩ ∧
      cbLookup ((handleIrrecoverableError
        (WakuState.mk ["R".toList] [] []
          [("R".toList, [("h1".toList, ⟨false, false, false, true⟩)])] ⟨false, []⟩)
        "R".toList "h1".toList).1) "R".toList "h1".toList = none) ∧
    ("h2".toList ≠ "h1".toList ∧
      cbLookup ((handleMessageAcknowledged
        (WakuState.mk ["R".toList] [] []
          [("R".toList, [("h1".toList, ⟨false, false, true, false⟩),
            ("h2".toList, ⟨false, false, true, false⟩)])] ⟨false, []⟩)
        "R".toList "h1".toList).1) "R".toList "h2".toList =
        cbLookup (WakuState.mk ["R".toList] [] []
          [("R".toList, [("h1".toList, ⟨false, false, true, false⟩),
            ("h2".toList, ⟨false, false, true, false⟩)])] ⟨false, []⟩)
          "R".toList "h2".toList) :=
  ⟨⟨by decide, claim_C5.1 _ "R".toList "h1".toList ⟨false, false, true, false⟩
      (by decide) rfl⟩,
    ⟨by decide, claim_C5.2.1 _ "R".toList "h1".toList ⟨false, false, false, true⟩
      (by decide) rfl⟩,
    ⟨by decide, (claim_C5.2.2.2 _ "R".toList "h1".toList "h2".toList (by decide)).1⟩⟩

/-! ## C9: a pre-join listener registration is discarded by join -/

/-- A fresh delivery whose payload fails to decode still emits only
the generic observability record (the throw is caught after the store
mutations). -/
theorem handleMessageReceived_parsefail_outs (s : WakuState) (r : Str) (w : DataPacketWire)
    (h : createContentMessageId w.type w.timestamp w.senderId w.payload ∉ storeOf s r)
    (hp : parseJson w.payload = none) :
    (handleMessageReceived s r w).2 =
      [Output.sds "in".toList "message-received".toList r] := by
  unfold storeOf at h
  rcases hl : lookupA s.processedMessageIds r with _ | ids <;>
    rw [hl] at h <;>
    simp only [Option.getD_none, Option.getD_some] at h <;>
    unfold handleMessageReceived <;>
    simp [hl, h, hp, lookupA_setA_self]

/-- Every output of one receive-handler run is either the generic
observability record or a fan-out to a currently registered
listener. -/
theorem handleMessageReceived_outs_shape (s : WakuState) (r : Str) (w : DataPacketWire) :
    ∀ o ∈ (handleMessageReceived s r w).2,
      o = Output.sds "in".toList "message-received".toList r ∨
      ∃ lid msg, o = Output.notify r lid msg ∧ lid ∈ listenersOf s r := by
  by_cases hm : createContentMessageId w.type w.timestamp w.senderId w.payload ∈ storeOf s r
  · rw [handleMessageReceived_dup s r w hm]
    intro o ho
    rw [List.mem_singleton] at ho
    exact Or.inl ho
  · rcases hp : parseJson w.payload with _ | p
    · rw [handleMessageReceived_parsefail_outs s r w hm hp]
      intro o ho
      rw [List.mem_singleton] at ho
      exact Or.inl ho
    · rw [handleMessageReceived_fresh_outs s r w p hm hp]
      intro o ho
      rcases List.mem_cons.1 ho with ho | ho
      · exact Or.inl ho
      · obtain ⟨lid, hlid, rfl⟩ := List.mem_map.1 ho
        exact Or.inr ⟨lid, _, rfl, hlid⟩

/-- In a room whose listener set is empty, no sequence of deliveries
ever produces a fan-out record for that room. -/
theorem runReceives_no_notify :
    ∀ (ws : List DataPacketWire) (s : WakuState) (r : Str), listenersOf s r = [] →
      ∀ o ∈ (runReceives s r ws).2, ∀ (lid : Nat) (msg : WakuMessage),
        o ≠ Output.notify r lid msg := by
  intro ws
  induction ws with
  | nil =>
    intro s r _ o ho
    simp [runReceives] at ho
  | cons w ws' ih =>
    intro s r hls o ho lid msg heq
    rcases he : handleMessageReceived s r w with ⟨s1, o1⟩
    rcases hrun : runReceives s1 r ws' with ⟨s2, o2⟩
    simp only [runReceives, he, hrun] at ho
    subst heq
    rcases List.mem_append.1 ho with h1 | h2
    · have hshape := handleMessageReceived_outs_shape s r w (Output.notify r lid msg)
        (by rw [he]; exact h1)
      rcases hshape with hcon | ⟨lid', msg', heq', hmem⟩
      · simp at hcon
      · rw [hls] at hmem
        simp at hmem
    · have hs1 : (handleMessageReceived s r w).1 = s1 := by rw [he]
      have hls1 : listenersOf s1 r = [] := by
        unfold listenersOf at hls ⊢
        rw [← hs1, (handleMessageReceived_frame s r w).2.1]
        exact hls
      exact ih s1 r hls1 (Output.notify r lid msg) (by rw [hrun]; exact h2) lid msg rfl

/-- C9: a listener registered via `onMessage` before the room is
joined is silently discarded by the join — `getOrCreateChannel`
overwrites the room's listener set with a fresh empty set — so the
listener is never invoked for any received message (and `onMessage`
itself reports no error: it is a total operation). -/
theorem claim_C9 (s : WakuState) (r : Str) (l : Nat) (h : r ∉ s.channels) :
    listenersOf (getOrCreateChannel (onMessage s r l) r) r = [] ∧
    ∀ (ws : List DataPacketWire),
      ∀ o ∈ (runReceives (getOrCreateChannel (onMessage s r l) r) r ws).2,
        ∀ msg : WakuMessage, o ≠ Output.notify r l msg := by
  have hch : r ∉ (onMessage s r l).channels := by
    unfold onMessage
    exact h
  have hls : listenersOf (getOrCreateChannel (onMessage s r l) r) r = [] := by
    unfold getOrCreateChannel
    rw [if_neg hch]
    unfold listenersOf
    simp [lookupA_setA_self]
  exact ⟨hls, fun ws o ho msg =>
    runReceives_no_notify ws _ r hls o ho l msg⟩

/-- Witness for C9: registering listener 5 for an unjoined room, then
joining, leaves the room's listener set empty. -/
theorem claim_C9_witness :
    "R1".toList ∉ (WakuState.mk [] [] [] [] ⟨false, []⟩).channels ∧
      listenersOf (getOrCreateChannel
        (onMessage (WakuState.mk [] [] [] [] ⟨false, []⟩) "R1".toList 5) "R1".toList)
        "R1".toList = [] :=
  ⟨by simp, (claim_C9 (WakuState.mk [] [] [] [] ⟨false, []⟩) "R1".toList 5 (by simp)).1⟩

/-! ## C7: leave keeps persisted deduplication data -/

theorem saveProcessedIds_lookup (st : Storage) (r : Str) (ids : List Str)
    (hf : st.fail = false) :
    (saveProcessedIds st r ids).fail = false ∧
    lookupA (saveProcessedIds st r ids).data (storageKey r) =
      some (printJson (.arr ((ids.drop (ids.length - MAX_PROCESSED_IDS)).map .str))) := by
  unfold saveProcessedIds setItem
  simp only [hf]
  simp [lookupA_setA_self]

/-- The storage result of a fresh delivery, as a function of the
persistence policy and the eviction condition. -/
theorem handleMessageReceived_fresh_storage_eq (s : WakuState) (r : Str) (w : DataPacketWire)
    (hm : createContentMessageId w.type w.timestamp w.senderId w.payload ∉ storeOf s r) :
    (handleMessageReceived s r w).1.storage =
      (if shouldPersistType w.type = true then
        if MAX_PROCESSED_IDS < (storeOf s r ++
            [createContentMessageId w.type w.timestamp w.senderId w.payload]).length then
          saveProcessedIds
            (saveProcessedIds s.storage r (storeOf s r ++
              [createContentMessageId w.type w.timestamp w.senderId w.payload])) r
            (evictOld (storeOf s r ++
              [createContentMessageId w.type w.timestamp w.senderId w.payload]))
        else
          saveProcessedIds s.storage r (storeOf s r ++
            [createContentMessageId w.type w.timestamp w.senderId w.payload])
      else s.storage) := by
  unfold storeOf at hm ⊢
  rcases hl : lookupA s.processedMessageIds r with _ | ids <;>
    rw [hl] at hm <;>
    simp only [Option.getD_none, Option.getD_some] at hm <;>
    unfold handleMessageReceived <;>
    by_cases hsp : shouldPersistType w.type = true <;>
      by_cases hlen : MAX_PROCESSED_IDS <
        (((lookupA s.processedMessageIds r).getD []) ++
          [createContentMessageId w.type w.timestamp w.senderId w.payload]).length <;>
        rw [hl] at hlen <;>
        simp only [Option.getD_none, Option.getD_some] at hlen <;>
        rcases hp : parseJson w.payload with _ | p <;>
          simp [hl, hm, hsp, hlen, hp, lookupA_setA_self]

theorem handleMessageReceived_fresh_storage (s : WakuState) (r : Str) (w : DataPacketWire)
    (hm : createContentMessageId w.type w.timestamp w.senderId w.payload ∉ storeOf s r)
    (hsp : shouldPersistType w.type = true) (hf : s.storage.fail = false) :
    (handleMessageReceived s r w).1.storage.fail = false ∧
    lookupA (handleMessageReceived s r w).1.storage.data (storageKey r) =
      some (printJson (.arr ((evictOld (storeOf s r ++
        [createContentMessageId w.type w.timestamp w.senderId w.payload])).map .str))) := by
  rw [handleMessageReceived_fresh_storage_eq s r w hm]
  simp only [hsp, if_true]
  by_cases hlen : MAX_PROCESSED_IDS < (storeOf s r ++
      [createContentMessageId w.type w.timestamp w.senderId w.payload]).length
  · rw [if_pos hlen]
    have h1 := saveProcessedIds_lookup s.storage r (storeOf s r ++
      [createContentMessageId w.type w.timestamp w.senderId w.payload]) hf
    have h2 := saveProcessedIds_lookup (saveProcessedIds s.storage r (storeOf s r ++
      [createContentMessageId w.type w.timestamp w.senderId w.payload])) r
      (evictOld (storeOf s r ++
        [createContentMessageId w.type w.timestamp w.senderId w.payload])) h1.1
    refine ⟨h2.1, ?_⟩
    rw [h2.2]
    have hlen2 : (evictOld (storeOf s r ++
        [createContentMessageId w.type w.timestamp w.senderId w.payload])).length =
        MAX_PROCESSED_IDS := by
      unfold evictOld
      rw [if_pos hlen, List.length_drop]
      omega
    rw [hlen2, Nat.sub_self, List.drop_zero]
  · rw [if_neg hlen]
    have h1 := saveProcessedIds_lookup s.storage r (storeOf s r ++
      [createContentMessageId w.type w.timestamp w.senderId w.payload]) hf
    refine ⟨h1.1, ?_⟩
    rw [h1.2]
    have hz : (storeOf s r ++
        [createContentMessageId w.type w.timestamp w.senderId w.payload]).length -
        MAX_PROCESSED_IDS = 0 := by omega
    rw [hz, List.drop_zero]
    have he : evictOld (storeOf s r ++
        [createContentMessageId w.type w.timestamp w.senderId w.payload]) =
        storeOf s r ++ [createContentMessageId w.type w.timestamp w.senderId w.payload] := by
      unfold evictOld
      rw [if_neg hlen]
    rw [he]

theorem loadProcessedIds_ok (st : Storage) (r : Str) (raw : Str) (j : Json)
    (hf : st.fail = false) (hlk : lookupA st.data (storageKey r) = some raw)
    (hp : parseJson raw = some j) : loadProcessedIds st r = jsSetOfJson j := by
  unfold loadProcessedIds getItem
  simp only [hf]
  simp [hlk, hp]

theorem jsSetOfJson_arr_str (xs : List Str) :
    jsSetOfJson (.arr (xs.map .str)) = dedupFirst xs := by
  show dedupFirst ((xs.map Json.str).map jsonElemStr) = dedupFirst xs
  rw [List.map_map]
  have h : (jsonElemStr ∘ Json.str) = id := by
    funext x
    rfl
  rw [h, List.map_id]

/-- C7: `leaveChannel` removes the room's channel entry, listener set,
deduplication store and callback map but leaves storage untouched; a
subsequent `getOrCreateChannel` reloads the persisted identities, so a
pre-leave message of a persisted kind is recognized as a duplicate
when redelivered: its second processing leaves the state unchanged and
fans out to no listener. -/
theorem claim_C7 (s : WakuState) (r : Str) (w : DataPacketWire) (p : Json)
    (hch : r ∈ s.channels) (hnd : s.channels.Nodup) (hf : s.storage.fail = false)
    (hm : createContentMessageId w.type w.timestamp w.senderId w.payload ∉ storeOf s r)
    (hsp : shouldPersistType w.type = true) (_hp : parseJson w.payload = some p) :
    (leaveChannel (handleMessageReceived s r w).1 r).storage =
      (handleMessageReceived s r w).1.storage ∧
    r ∉ (leaveChannel (handleMessageReceived s r w).1 r).channels ∧
    lookupA (leaveChannel (handleMessageReceived s r w).1 r).channelListeners r = none ∧
    lookupA (leaveChannel (handleMessageReceived s r w).1 r).processedMessageIds r = none ∧
    lookupA (leaveChannel (handleMessageReceived s r w).1 r).messageCallbacks r = none ∧
    createContentMessageId w.type w.timestamp w.senderId w.payload ∈
      storeOf (getOrCreateChannel (leaveChannel (handleMessageReceived s r w).1 r) r) r ∧
    handleMessageReceived
        (getOrCreateChannel (leaveChannel (handleMessageReceived s r w).1 r) r) r w =
      (getOrCreateChannel (leaveChannel (handleMessageReceived s r w).1 r) r,
        [Output.sds "in".toList "message-received".toList r]) := by
  have hch1 : r ∈ (handleMessageReceived s r w).1.channels := by
    rw [(handleMessageReceived_frame s r w).1]
    exact hch
  have hnd1 : (handleMessageReceived s r w).1.channels.Nodup := by
    rw [(handleMessageReceived_frame s r w).1]
    exact hnd
  have hst := handleMessageReceived_fresh_storage s r w hm hsp hf
  have hstorage : (leaveChannel (handleMessageReceived s r w).1 r).storage =
      (handleMessageReceived s r w).1.storage := by
    unfold leaveChannel
    rw [if_pos hch1]
  have hnotmem : r ∉ (leaveChannel (handleMessageReceived s r w).1 r).channels := by
    unfold leaveChannel
    rw [if_pos hch1]
    exact hnd1.not_mem_erase
  have hmem3 : createContentMessageId w.type w.timestamp w.senderId w.payload ∈
      storeOf (getOrCreateChannel (leaveChannel (handleMessageReceived s r w).1 r) r) r := by
    unfold getOrCreateChannel
    rw [if_neg hnotmem]
    unfold storeOf
    simp only [lookupA_setA_self, Option.getD_some]
    rw [hstorage]
    rw [loadProcessedIds_ok _ r _ _ hst.1 hst.2 (parseJson_printJson _),
      jsSetOfJson_arr_str]
    rw [dedupFirst_mem]
    exact mem_evictOld_append_self _ _
  refine ⟨hstorage, hnotmem, ?_, ?_, ?_, hmem3,
    handleMessageReceived_dup _ r w hmem3⟩
  · unfold leaveChannel
    rw [if_pos hch1]
    exact lookupA_removeA_self _ r
  · unfold leaveChannel
    rw [if_pos hch1]
    exact lookupA_removeA_self _ r
  · unfold leaveChannel
    rw [if_pos hch1]
    exact lookupA_removeA_self _ r

/-- Witness for C7: a persisted-kind message received in a joined
room, then leave and rejoin; the reloaded store still recognizes the
redelivered message. -/
theorem claim_C7_witness :
    ("R1".toList ∈ (WakuState.mk ["R1".toList] [("R1".toList, [7])] [("R1".toList, [])]
        [("R1".toList, [])] ⟨false, []⟩).channels ∧
      shouldPersistType "QUESTION_ADDED".toList = true ∧
      parseJson "null".toList = some Json.null) ∧
    createContentMessageId "QUESTION_ADDED".toList 1000 "u1".toList "null".toList ∈
      storeOf (getOrCreateChannel (leaveChannel
        (handleMessageReceived (WakuState.mk ["R1".toList] [("R1".toList, [7])]
          [("R1".toList, [])] [("R1".toList, [])] ⟨false, []⟩) "R1".toList
          ⟨"QUESTION_ADDED".toList, 1000, "u1".toList, "null".toList⟩).1 "R1".toList)
        "R1".toList) "R1".toList :=
  ⟨⟨by decide, by decide, rfl⟩,
    (claim_C7 (WakuState.mk ["R1".toList] [("R1".toList, [7])] [("R1".toList, [])]
      [("R1".toList, [])] ⟨false, []⟩) "R1".toList
      ⟨"QUESTION_ADDED".toList, 1000, "u1".toList, "null".toList⟩ Json.null
      (by decide) (by decide) rfl (by decide) (by decide) rfl).2.2.2.2.2.1⟩

end Waku
